import Mathlib

/-!
Verification of the PeezyAgent core (src/core/models.py and src/core/config.py)
against its natural-language specification.

Shallow embedding conventions:
* Python `str` is modelled by Lean `String` (sequences of characters); the
  character-level operations of the source (regexes, `upper`, `lower`,
  `strip`, substring tests) are modelled on `List Char`, restricted to the
  ASCII behaviour the source exercises.
* Python `float` is modelled by `ℚ` (exact rational arithmetic).  The source
  only ever adds, multiplies and divides small decimal constants; the
  binary-rounding artefacts of IEEE doubles are outside this model.
* Python `datetime` (naive, microsecond precision) is modelled by a record of
  calendar fields; `isoformat`/`fromisoformat` are modelled concretely at the
  precision the source serializes.
* Raising an exception is modelled by `Except`: `.error e` carries a
  structured error mirroring the exact message the source raises.
-/

namespace PeezyAgent

/-! ## Error kinds (spec section 7)

The specification classifies every failure into one of five kinds; the two
exception classes of the source (`ModelValidationError`, `ConfigError`) carry
distinct messages mapped onto those kinds below. -/

inductive ErrKind
  | missingRequired
  | emptyValue
  | invalidFormat
  | outOfRange
  | securityRejected
  | immutableViolation
deriving DecidableEq, Repr

/-- Errors raised as `ModelValidationError` in src/core/models.py (and the
`ValueError` that `datetime.fromisoformat` raises on a malformed timestamp).
Each constructor corresponds to one distinct message in the source:
* `missingField name` — "Missing required field: {name}"
* `pathTraversal` — "Invalid filename format - path traversal not allowed"
* `badExtension` — "Only PDF files are supported"
* `contentTooLarge` — "Content too large - maximum 10,000,000 characters allowed"
* `scoreOutOfRange` — "Analysis score must be between 0 and 100" and
  "Score must be between 0 and 100"
* `immutableAnalysis` — "AnalysisResult is immutable after creation"
* `badTimestamp` — the `ValueError` from `datetime.fromisoformat` -/
inductive ModelError
  | missingField (name : String)
  | pathTraversal
  | badExtension
  | contentTooLarge
  | scoreOutOfRange
  | immutableAnalysis
  | badTimestamp
deriving DecidableEq, Repr

/-- The spec-section-7 kind of each model error. -/
def ModelError.kind : ModelError → ErrKind
  | .missingField _ => .missingRequired
  | .pathTraversal => .securityRejected
  | .badExtension => .invalidFormat
  | .contentTooLarge => .securityRejected
  | .scoreOutOfRange => .outOfRange
  | .immutableAnalysis => .immutableViolation
  | .badTimestamp => .invalidFormat

/-- Errors raised as `ConfigError` in src/core/config.py, one constructor per
distinct message:
* `missingRequired key` — "Missing required environment variable: {key}"
* `emptyValue key` — "Environment variable {key} cannot be empty"
* `badApiKeyFormat` — "ANTHROPIC_API_KEY must start with 'sk-'"
* `invalidSizeParse s` — "Invalid file size format: {s}" (from `_parse_file_size_to_bytes`)
* `invalidMaxFileSize s` — "Invalid MAX_FILE_SIZE format: {s}" (from `validate`)
* `badFileTypes s` — "SUPPORTED_FILE_TYPES must start with '.': {s}"
* `frozenWrite name` — "Configuration is frozen. Cannot modify {name}" -/
inductive ConfigError
  | missingRequired (key : String)
  | emptyValue (key : String)
  | badApiKeyFormat
  | invalidSizeParse (s : String)
  | invalidMaxFileSize (s : String)
  | badFileTypes (s : String)
  | frozenWrite (name : String)
deriving DecidableEq, Repr

/-- The spec-section-7 kind of each configuration error. -/
def ConfigError.kind : ConfigError → ErrKind
  | .missingRequired _ => .missingRequired
  | .emptyValue _ => .emptyValue
  | .badApiKeyFormat => .invalidFormat
  | .invalidSizeParse _ => .invalidFormat
  | .invalidMaxFileSize _ => .invalidFormat
  | .badFileTypes _ => .invalidFormat
  | .frozenWrite _ => .immutableViolation

instance {ε α : Type} [DecidableEq ε] [DecidableEq α] : DecidableEq (Except ε α) := fun x y =>
  match x, y with
  | .error e, .error f =>
      if h : e = f then .isTrue (by rw [h]) else .isFalse (fun hh => by cases hh; exact h rfl)
  | .ok a, .ok b =>
      if h : a = b then .isTrue (by rw [h]) else .isFalse (fun hh => by cases hh; exact h rfl)
  | .error _, .ok _ => .isFalse (fun hh => by cases hh)
  | .ok _, .error _ => .isFalse (fun hh => by cases hh)

/-! ## Naive `datetime` at microsecond precision

`datetime.now()` in the source produces a naive datetime; `isoformat()`
serializes it as `YYYY-MM-DDTHH:MM:SS` with a `.ffffff` microsecond suffix
exactly when the microsecond field is nonzero, and `fromisoformat` parses
that back exactly. -/

structure DateTime where
  year : ℕ
  month : ℕ
  day : ℕ
  hour : ℕ
  minute : ℕ
  second : ℕ
  usec : ℕ
deriving DecidableEq, Repr

def isLeapYear (y : ℕ) : Bool := y % 4 = 0 && (y % 100 ≠ 0 || y % 400 = 0)

def daysInMonth (y m : ℕ) : ℕ :=
  if m = 2 then (if isLeapYear y then 29 else 28)
  else if m = 4 ∨ m = 6 ∨ m = 9 ∨ m = 11 then 30
  else 31

def DateTime.validb (t : DateTime) : Bool :=
  1 ≤ t.year && t.year ≤ 9999 && 1 ≤ t.month && t.month ≤ 12 &&
  1 ≤ t.day && t.day ≤ daysInMonth t.year t.month &&
  t.hour ≤ 23 && t.minute ≤ 59 && t.second ≤ 59 && t.usec ≤ 999999

def DateTime.Valid (t : DateTime) : Prop := t.validb = true

instance (t : DateTime) : Decidable t.Valid := by unfold DateTime.Valid; infer_instance

def digitChar : ℕ → Char
  | 0 => '0' | 1 => '1' | 2 => '2' | 3 => '3' | 4 => '4'
  | 5 => '5' | 6 => '6' | 7 => '7' | 8 => '8' | 9 => '9'
  | _ => '*'

def digitVal (c : Char) : ℕ := c.toNat - 48

def padN : ℕ → ℕ → List Char
  | 0, _ => []
  | k + 1, n => digitChar (n / 10 ^ k) :: padN k (n % 10 ^ k)

def readN : ℕ → ℕ → List Char → Option (ℕ × List Char)
  | 0, acc, cs => some (acc, cs)
  | _ + 1, _, [] => none
  | k + 1, acc, c :: cs => if c.isDigit then readN k (10 * acc + digitVal c) cs else none

def isoChars (t : DateTime) : List Char :=
  padN 4 t.year ++ ('-' :: (padN 2 t.month ++ ('-' :: (padN 2 t.day ++
    ('T' :: (padN 2 t.hour ++ (':' :: (padN 2 t.minute ++ (':' :: (padN 2 t.second ++
    (if t.usec = 0 then [] else '.' :: padN 6 t.usec)))))))))))

/-- Model of `datetime.isoformat()`. -/
def DateTime.isoformat (t : DateTime) : String := ⟨isoChars t⟩

def expectChar (c : Char) : List Char → Option (List Char)
  | [] => none
  | x :: r => if x = c then some r else none

def usecPart : List Char → Option (ℕ × List Char)
  | [] => some (0, [])
  | c :: rest => if c = '.' then readN 6 0 rest else none

def parseIsoChars (cs : List Char) : Option DateTime :=
  (readN 4 0 cs).bind fun py =>
  (expectChar '-' py.2).bind fun c1 =>
  (readN 2 0 c1).bind fun pmo =>
  (expectChar '-' pmo.2).bind fun c2 =>
  (readN 2 0 c2).bind fun pd =>
  (expectChar 'T' pd.2).bind fun c3 =>
  (readN 2 0 c3).bind fun ph =>
  (expectChar ':' ph.2).bind fun c4 =>
  (readN 2 0 c4).bind fun pmi =>
  (expectChar ':' pmi.2).bind fun c5 =>
  (readN 2 0 c5).bind fun ps =>
  (usecPart ps.2).bind fun pu =>
  if pu.2 = [] then
    (if DateTime.validb ⟨py.1, pmo.1, pd.1, ph.1, pmi.1, ps.1, pu.1⟩ then
      some ⟨py.1, pmo.1, pd.1, ph.1, pmi.1, ps.1, pu.1⟩ else none)
  else none

/-- Python `str.replace('Z', '+00:00')` at character level. -/
def replaceZ : List Char → List Char
  | [] => []
  | c :: r =>
      if c = 'Z' then '+' :: '0' :: '0' :: ':' :: '0' :: '0' :: replaceZ r
      else c :: replaceZ r

/-- The timestamp handling of `from_dict`: replace a trailing `Z` marker and
parse the ISO-8601 string. -/
def parseCreatedAt (s : String) : Option DateTime := parseIsoChars (replaceZ s.data)

/-! ## `RFPProposal` (src/core/models.py lines 16-116)

A plain (non-frozen) dataclass: `id`, `filename`, `content` are typed
`Optional[str]` with `None` defaults, validated in `__post_init__`.  Note
that, unlike `AnalysisResult` and `Config`, this class defines **no**
`__setattr__` guard: after construction its attributes can be freely
reassigned. -/

structure RFPProposal where
  id : Option String
  filename : Option String
  content : Option String
  extracted_data : List (String × String)
  analysis_score : Option ℚ
  created_at : DateTime
deriving DecidableEq, Repr

/-- The ASCII case table: Python `str.upper`/`str.lower` restricted to the
basic latin letters the source's checks exercise (the regex classes
`[KMGT]?B` and the literal `.pdf`). -/
def casePairs : List (Char × Char) :=
  [('a', 'A'), ('b', 'B'), ('c', 'C'), ('d', 'D'), ('e', 'E'), ('f', 'F'),
   ('g', 'G'), ('h', 'H'), ('i', 'I'), ('j', 'J'), ('k', 'K'), ('l', 'L'),
   ('m', 'M'), ('n', 'N'), ('o', 'O'), ('p', 'P'), ('q', 'Q'), ('r', 'R'),
   ('s', 'S'), ('t', 'T'), ('u', 'U'), ('v', 'V'), ('w', 'W'), ('x', 'X'),
   ('y', 'Y'), ('z', 'Z')]

def pyUpperChar (c : Char) : Char :=
  ((casePairs.find? fun p => p.1 = c).map Prod.snd).getD c

def pyLowerChar (c : Char) : Char :=
  ((casePairs.find? fun p => p.2 = c).map Prod.fst).getD c

/-- Python `str.strip()` with no argument: remove leading and trailing
whitespace (the ASCII whitespace the source's values exercise). -/
def pyStrip (s : String) : String :=
  ⟨((s.data.dropWhile Char.isWhitespace).reverse.dropWhile Char.isWhitespace).reverse⟩

/-- Python `str.startswith(pre)`. -/
def pyStartsWith (s pre : String) : Bool :=
  pre.data.isPrefixOf s.data

/-- Model of `'../' in filename or '\\' in filename` from `RFPProposal._validate`. -/
def hasTraversal (filename : String) : Bool :=
  decide ("../".data <:+: filename.data) || filename.data.contains '\\'

/-- Model of `filename.lower().endswith('.pdf')` (ASCII lowering, as exercised). -/
def isPdfFilename (filename : String) : Bool :=
  decide (".pdf".data <:+ filename.data.map pyLowerChar)

/-- Model of `max_content_length = 10_000_000` in `RFPProposal._validate`. -/
def MAX_CONTENT_LENGTH : ℕ := 10000000

/-- Model of `RFPProposal._validate`, in source order.  The `isinstance` type checks
of the source are statically guaranteed by the field types here and are
therefore omitted; `self.id is None or not self.id` collapses to the
`getD "" = ""` test (absent and empty are rejected identically). -/
def RFPProposal.validate (p : RFPProposal) : Except ModelError Unit :=
  if p.id.getD "" = "" then .error (.missingField "id")
  else if p.filename.getD "" = "" then .error (.missingField "filename")
  else if p.content.getD "" = "" then .error (.missingField "content")
  else if hasTraversal (p.filename.getD "") then .error .pathTraversal
  else if ¬ isPdfFilename (p.filename.getD "") then .error .badExtension
  else if MAX_CONTENT_LENGTH < (p.content.getD "").length then .error .contentTooLarge
  else
    match p.analysis_score with
    | none => .ok ()
    | some s => if 0 ≤ s ∧ s ≤ 100 then .ok () else .error .scoreOutOfRange

/-- Dataclass construction: `__init__` populates the fields, then
`__post_init__` runs `_validate`; a validation failure propagates and no
object is observable. -/
def mkRFPProposal (pid filename content : Option String)
    (extracted_data : List (String × String)) (analysis_score : Option ℚ)
    (created_at : DateTime) : Except ModelError RFPProposal :=
  match RFPProposal.validate
      ⟨pid, filename, content, extracted_data, analysis_score, created_at⟩ with
  | .error e => .error e
  | .ok _ => .ok ⟨pid, filename, content, extracted_data, analysis_score, created_at⟩

/-- Python's default `object.__setattr__` on a plain dataclass: the write
always succeeds and updates the object (no immutability guard exists on
`RFPProposal`).  `upd` stands for one field assignment. -/
def RFPProposal.setattr (p : RFPProposal) (upd : RFPProposal → RFPProposal) :
    Except ModelError RFPProposal :=
  .ok (upd p)

/-- The plain mapping produced by `RFPProposal.to_dict`: the six known keys,
with `created_at` serialized by `isoformat()`. -/
structure ProposalDict where
  id : Option String
  filename : Option String
  content : Option String
  extracted_data : List (String × String)
  analysis_score : Option ℚ
  created_at : String
deriving DecidableEq, Repr

def RFPProposal.to_dict (p : RFPProposal) : ProposalDict :=
  ⟨p.id, p.filename, p.content, p.extracted_data, p.analysis_score, p.created_at.isoformat⟩

/-- Model of `RFPProposal.from_dict`: parse the `created_at` ISO string (accepting a
trailing `Z` via the `replace` call), then construct — which re-runs full
validation.  Unknown keys are already filtered away by the typed mapping. -/
def RFPProposal.from_dict (d : ProposalDict) : Except ModelError RFPProposal :=
  match parseCreatedAt d.created_at with
  | none => .error .badTimestamp
  | some t => mkRFPProposal d.id d.filename d.content d.extracted_data d.analysis_score t

/-! ## `AnalysisResult` (src/core/models.py lines 119-241)

A dataclass guarded by a `__setattr__` that raises once the `_frozen` flag
is set at the end of `__post_init__`.  `criteria_scores` is a `dict`; it is
modelled as its association list of entries (`__post_init__` and
`_calculate_overall_score` only ever iterate the entries and take `len`). -/

structure AnalysisResult where
  proposal_id : String
  criteria_scores : List (String × ℚ)
  overall_score : Option ℚ
  strengths : List String
  concerns : List String
  recommendation_rank : Option ℤ
  created_at : DateTime
  frozen : Bool
deriving DecidableEq, Repr

/-- Model of `DEFAULT_CRITERIA_WEIGHTS` (the five named criteria). -/
def DEFAULT_CRITERIA_WEIGHTS (c : String) : Option ℚ :=
  if c = "price" then some (30 / 100)
  else if c = "technical_approach" then some (25 / 100)
  else if c = "experience" then some (20 / 100)
  else if c = "timeline" then some (15 / 100)
  else if c = "risk" then some (10 / 100)
  else none

/-- Model of `DEFAULT_CRITERIA_WEIGHTS.get(criterion, 1.0 / len(self.criteria_scores))`,
where `n` is the entry count of the record's `criteria_scores`. -/
def criteriaWeight (n : ℕ) (c : String) : ℚ :=
  (DEFAULT_CRITERIA_WEIGHTS c).getD (1 / (n : ℚ))

/-- The `total_weight` accumulator of `_calculate_overall_score`. -/
def totalWeight (scores : List (String × ℚ)) : ℚ :=
  (scores.map fun x => criteriaWeight scores.length x.1).sum

/-- The `total_score` accumulator of `_calculate_overall_score`. -/
def totalScore (scores : List (String × ℚ)) : ℚ :=
  (scores.map fun x => x.2 * criteriaWeight scores.length x.1).sum

/-- Floor of a rational, written so that it evaluates by kernel reduction
(`Int./` is euclidean division, so this is `Rat.floor`). -/
def ratFloor (q : ℚ) : ℤ := q.num / q.den

/-- Round-half-to-even to an integer, the tie-breaking rule of Python's
built-in `round`. -/
def rhe (x : ℚ) : ℤ :=
  if x - ratFloor x < 1 / 2 then ratFloor x
  else if 1 / 2 < x - ratFloor x then ratFloor x + 1
  else if Even (ratFloor x) then ratFloor x else ratFloor x + 1

/-- Model of `round(x, 2)` on the exact rational value. -/
def round2 (x : ℚ) : ℚ := (rhe (x * 100) : ℚ) / 100

/-- Model of `AnalysisResult._calculate_overall_score`:
`round(total_score / total_weight if total_weight > 0 else 0.0, 2)`. -/
def calculateOverallScore (scores : List (String × ℚ)) : ℚ :=
  round2 (if 0 < totalWeight scores then totalScore scores / totalWeight scores else 0)

/-- The criteria-score loop of `AnalysisResult._validate`: raise on the
first entry outside [0, 100]. -/
def checkCriteriaScores (l : List (String × ℚ)) : Except ModelError Unit :=
  match l.find? (fun x => ! decide (0 ≤ x.2 ∧ x.2 ≤ 100)) with
  | some _ => .error .scoreOutOfRange
  | none => .ok ()

/-- Model of `AnalysisResult._validate`, in source order.  The `isinstance` number
check is statically guaranteed by the `ℚ` entry type. -/
def AnalysisResult.validate (a : AnalysisResult) : Except ModelError Unit :=
  if a.proposal_id = "" then .error (.missingField "proposal_id")
  else if a.criteria_scores.isEmpty then .error (.missingField "criteria_scores")
  else if a.overall_score.any (fun s => ! decide (0 ≤ s ∧ s ≤ 100)) then
    .error .scoreOutOfRange
  else checkCriteriaScores a.criteria_scores

/-- Dataclass construction of `AnalysisResult`: `__post_init__` validates,
fills in a missing `overall_score` from `_calculate_overall_score`, and
finally sets `_frozen = True`. -/
def mkAnalysisResult (pid : String) (scores : List (String × ℚ)) (overall : Option ℚ)
    (strengths concerns : List String) (rank : Option ℤ) (t : DateTime) :
    Except ModelError AnalysisResult :=
  match AnalysisResult.validate ⟨pid, scores, overall, strengths, concerns, rank, t, false⟩ with
  | .error e => .error e
  | .ok _ =>
      match overall with
      | none =>
          .ok ⟨pid, scores, some (calculateOverallScore scores), strengths, concerns, rank, t, true⟩
      | some q => .ok ⟨pid, scores, some q, strengths, concerns, rank, t, true⟩

/-- Model of `AnalysisResult.__setattr__`: raises whenever the `_frozen` flag is set,
regardless of the field being written; otherwise performs the write (`upd`
stands for one field assignment). -/
def AnalysisResult.setattr (a : AnalysisResult) (upd : AnalysisResult → AnalysisResult) :
    Except ModelError AnalysisResult :=
  if a.frozen then .error .immutableAnalysis else .ok (upd a)

/-- The plain mapping produced by `AnalysisResult.to_dict`. -/
structure AnalysisDict where
  proposal_id : String
  overall_score : Option ℚ
  criteria_scores : List (String × ℚ)
  strengths : List String
  concerns : List String
  recommendation_rank : Option ℤ
  created_at : String
deriving DecidableEq, Repr

def AnalysisResult.to_dict (a : AnalysisResult) : AnalysisDict :=
  ⟨a.proposal_id, a.overall_score, a.criteria_scores, a.strengths, a.concerns,
    a.recommendation_rank, a.created_at.isoformat⟩

/-- Model of `AnalysisResult.from_dict`: parse `created_at` (accepting a trailing `Z`),
then construct — re-running validation and the score computation. -/
def AnalysisResult.from_dict (d : AnalysisDict) : Except ModelError AnalysisResult :=
  match parseCreatedAt d.created_at with
  | none => .error .badTimestamp
  | some t => mkAnalysisResult d.proposal_id d.criteria_scores d.overall_score d.strengths
      d.concerns d.recommendation_rank t

/-! ## `Config` (src/core/config.py)

The process environment is modelled as a function from variable names to
optional raw string values; `secrets.token_hex(32)` is modelled as hex-encoding an
externally supplied list of 32 random bytes. -/

/-- The process environment (`os.environ.get`). -/
def EnvMap : Type := String → Option String

structure Config where
  anthropic_api_key : String
  flask_secret_key : String
  max_file_size : String
  supported_file_types : String
  max_file_size_bytes : ℕ
  frozen : Bool
deriving DecidableEq, Repr

def DEFAULT_MAX_FILE_SIZE : String := "10MB"

def DEFAULT_SUPPORTED_FILE_TYPES : String := ".pdf"

/-- Model of `Config._get_required_env`: absent raises the missing-variable error,
blank after `strip()` raises the empty-value error, otherwise the stripped
value is returned. -/
def getRequiredEnv (env : EnvMap) (key : String) : Except ConfigError String :=
  match env key with
  | none => .error (.missingRequired key)
  | some raw =>
      if pyStrip raw = "" then .error (.emptyValue key) else .ok (pyStrip raw)

/-- Model of `Config._get_optional_env`: absent or blank after `strip()` falls back to
the default, otherwise the stripped value is returned. -/
def getOptionalEnv (env : EnvMap) (key default : String) : String :=
  match env key with
  | none => default
  | some raw => if pyStrip raw = "" then default else pyStrip raw

/-- Lowercase hex digit for `n < 16` (and a sentinel otherwise). -/
def hexDigitChar : ℕ → Char
  | 0 => '0' | 1 => '1' | 2 => '2' | 3 => '3' | 4 => '4'
  | 5 => '5' | 6 => '6' | 7 => '7' | 8 => '8' | 9 => '9'
  | 10 => 'a' | 11 => 'b' | 12 => 'c' | 13 => 'd' | 14 => 'e' | 15 => 'f'
  | _ => '*'

/-- Model of `secrets.token_hex` applied to the given random bytes: two lowercase hex
characters per byte. -/
def token_hex (bytes : List (Fin 256)) : String :=
  ⟨bytes.foldr (fun b acc => hexDigitChar (b.val / 16) :: hexDigitChar (b.val % 16) :: acc) []⟩

/-! ### The size pattern `^\d+(\.\d+)?[KMGT]?B$`

`_is_valid_file_size` applies `re.match` of this pattern to the upper-cased
input.  Python's `$` matches at the end of the string **or just before a
newline at the end of the string**, so the code also accepts a valid size
string followed by one trailing newline; `sizeBody` below is the strict
full-pattern language and `pyMatchSize` adds Python's end-of-line rule.
`\d` is modelled as the ASCII digits the pattern's own examples use. -/

/-- Full match of `\d+(\.\d+)?[KMGT]?B` (after the digits and the optional
fraction, the remainder must be a unit letter and `B`, or just `B`).
The regex is deterministic here: no backtracking can succeed where this
direct reading fails, since digits, `.`, the unit letters and `B` are
pairwise disjoint character classes. -/
def sizeUnitTail : List Char → Bool
  | ['B'] => true
  | [u, 'B'] => u = 'K' || u = 'M' || u = 'G' || u = 'T'
  | _ => false

/-- The `(\.\d+)?` fraction group: the digits after the dot, when the first
character after the integer digits is a dot (else empty). -/
def sizeFrac (cs : List Char) : List Char :=
  if (cs.dropWhile Char.isDigit).head? = some '.' then
    (cs.dropWhile Char.isDigit).tail.takeWhile Char.isDigit
  else []

/-- What remains after the integer digits and the optional fraction. -/
def sizeRest (cs : List Char) : List Char :=
  if (cs.dropWhile Char.isDigit).head? = some '.' then
    (cs.dropWhile Char.isDigit).tail.dropWhile Char.isDigit
  else cs.dropWhile Char.isDigit

def sizeBody (cs : List Char) : Bool :=
  !(cs.takeWhile Char.isDigit).isEmpty &&
  (if (cs.dropWhile Char.isDigit).head? = some '.' then !(sizeFrac cs).isEmpty else true) &&
  sizeUnitTail (sizeRest cs)

/-- Model of `re.match(pattern, s)` anchored at the start, with Python's `$` rule
(match at the very end, or just before one trailing newline). -/
def pyMatchSize (cs : List Char) : Bool :=
  sizeBody cs || (cs.getLast? = some '\n' && sizeBody cs.dropLast)

/-- Model of `Config._is_valid_file_size` (the input is upper-cased first; ASCII
upper-casing is what the pattern's character classes exercise). -/
def isValidFileSize (s : String) : Bool :=
  pyMatchSize (s.data.map pyUpperChar)

/-- The size-string language as the specification words it: a full,
case-insensitive match of `^\d+(\.\d+)?[KMGT]?B$` and nothing more.
(Stated from the spec for comparison with the code's `isValidFileSize`.) -/
def specSizeMatch (s : String) : Bool :=
  sizeBody (s.data.map pyUpperChar)

/-- Numeric value of a digit list (most significant first). -/
def digitsToNat (ds : List Char) : ℕ := ds.foldl (fun a c => 10 * a + digitVal c) 0

/-- The value of the numeric literal `ds[.fs]` as an exact rational —
`float(number)` in the source, modelled exactly. -/
def pyFloatVal (ds fs : List Char) : ℚ :=
  (digitsToNat ds : ℚ) + (digitsToNat fs : ℚ) / 10 ^ fs.length

/-- Model of `FILE_SIZE_UNITS` keyed by the unit group text. -/
def FILE_SIZE_UNITS (u : List Char) : ℕ :=
  if u = ['B'] then 1
  else if u = ['K', 'B'] then 1024
  else if u = ['M', 'B'] then 1024 ^ 2
  else if u = ['G', 'B'] then 1024 ^ 3
  else if u = ['T', 'B'] then 1024 ^ 4
  else 0

/-- The `([KMGT]?B)` unit group as matched by the extraction regex
`(\d+(?:\.\d+)?)([KMGT]?B)` on a string that already passed
`_is_valid_file_size`: a leading unit letter plus `B`, or `B` alone. -/
def sizeUnit (cs : List Char) : List Char :=
  match (sizeRest cs).head? with
  | some u => if u = 'K' ∨ u = 'M' ∨ u = 'G' ∨ u = 'T' then [u, 'B'] else ['B']
  | none => ['B']

/-- The `(\d+(?:\.\d+)?)` number group, valued as an exact rational. -/
def sizeNumber (cs : List Char) : ℚ :=
  pyFloatVal (cs.takeWhile Char.isDigit) (sizeFrac cs)

/-- Model of `Config._parse_file_size_to_bytes`: reject when `_is_valid_file_size`
fails; otherwise extract the number group and the unit group with
`re.match(r'(\d+(?:\.\d+)?)([KMGT]?B)', ...)` from the upper-cased string
and return `int(float(number) * FILE_SIZE_UNITS[unit])` (truncation toward
zero of a nonnegative value = floor). -/
def parseFileSizeToBytes (s : String) : Except ConfigError ℕ :=
  if ¬ isValidFileSize s then .error (.invalidSizeParse s)
  else
    .ok ((ratFloor (sizeNumber (s.data.map pyUpperChar) *
          (FILE_SIZE_UNITS (sizeUnit (s.data.map pyUpperChar)) : ℚ))).toNat)

/-- Model of `Config.validate`: API-key prefix first, then the size format, then the
dot prefix of the supported types. -/
def Config.validate (c : Config) : Except ConfigError Unit :=
  if ¬ pyStartsWith c.anthropic_api_key "sk-" then .error .badApiKeyFormat
  else if ¬ isValidFileSize c.max_file_size then .error (.invalidMaxFileSize c.max_file_size)
  else if ¬ pyStartsWith c.supported_file_types "." then
    .error (.badFileTypes c.supported_file_types)
  else .ok ()

/-- Model of `Config.__init__` (with `load_dotenv` behaviour folded into the supplied
environment, since the dotenv import is a best-effort no-op in this model):
required key, optional values with defaults, byte-size derivation, validation,
then the freeze.  `rand` supplies the 32 random bytes `secrets.token_hex`
would draw when no external secret is given. -/
def loadConfig (env : EnvMap) (rand : List (Fin 256)) : Except ConfigError Config :=
  match getRequiredEnv env "ANTHROPIC_API_KEY" with
  | .error e => .error e
  | .ok apiKey =>
      let secret := getOptionalEnv env "FLASK_SECRET_KEY" (token_hex rand)
      let maxSize := getOptionalEnv env "MAX_FILE_SIZE" DEFAULT_MAX_FILE_SIZE
      let types := getOptionalEnv env "SUPPORTED_FILE_TYPES" DEFAULT_SUPPORTED_FILE_TYPES
      match parseFileSizeToBytes maxSize with
      | .error e => .error e
      | .ok bytes =>
          match Config.validate ⟨apiKey, secret, maxSize, types, bytes, false⟩ with
          | .error e => .error e
          | .ok _ => .ok ⟨apiKey, secret, maxSize, types, bytes, true⟩

/-- Model of `Config.__setattr__`: raises once `_frozen` is set, for every attribute
name; otherwise performs the write. -/
def Config.setattr (c : Config) (name : String) (upd : Config → Config) :
    Except ConfigError Config :=
  if c.frozen then .error (.frozenWrite name) else .ok (upd c)

/-! ### Canonical decomposition of strings of the size language

Every word of `\d+(\.\d+)?[KMGT]?B` is `ds ++ fracPart ++ unitChars u ++ ['B']`
for a nonempty digit list `ds`, a fraction digit list `fs` (with its dot when
nonempty) and an optional unit letter `u ∈ {K, M, G, T}`. -/

def unitChars : Option Char → List Char
  | none => []
  | some c => [c]

/-- The claim's multiplier table: B = 1, KB = 1024, MB = 1024², GB = 1024³,
TB = 1024⁴ (stated from the specification for comparison). -/
def specMultiplier : Option Char → ℕ
  | none => 1
  | some 'K' => 1024
  | some 'M' => 1024 ^ 2
  | some 'G' => 1024 ^ 3
  | some 'T' => 1024 ^ 4
  | some _ => 0

/-- The weight table as the claim words it: 0.30 / 0.25 / 0.20 / 0.15 / 0.10
for the five named criteria and the equal-share `1 / N` fallback otherwise
(stated from the specification for comparison). -/
def specWeight (n : ℕ) (c : String) : ℚ :=
  if c = "price" then 30 / 100
  else if c = "technical_approach" then 25 / 100
  else if c = "experience" then 20 / 100
  else if c = "timeline" then 15 / 100
  else if c = "risk" then 10 / 100
  else 1 / (n : ℚ)

/-! ### Support lemmas for the generated session secret -/

def isHexLowerChar (c : Char) : Bool := c.isDigit || ('a' ≤ c && c ≤ 'f')

/-! ## Theorems -/

theorem daysInMonth_le (y m : ℕ) : daysInMonth y m ≤ 31 := by
  unfold daysInMonth
  split
  · split <;> omega
  · split <;> omega

theorem digitChar_isDigit {d : ℕ} (h : d < 10) : (digitChar d).isDigit = true := by
  interval_cases d <;> decide

theorem digitVal_digitChar {d : ℕ} (h : d < 10) : digitVal (digitChar d) = d := by
  interval_cases d <;> decide

theorem readN_padN : ∀ (k n acc : ℕ), n < 10 ^ k → ∀ rest : List Char,
    readN k acc (padN k n ++ rest) = some (acc * 10 ^ k + n, rest) := by
  intro k
  induction k with
  | zero =>
      intro n acc h rest
      have : n = 0 := by omega
      subst this
      simp [padN, readN]
  | succ k ih =>
      intro n acc h rest
      have hq : n / 10 ^ k < 10 := by
        have hp : 0 < (10 : ℕ) ^ k := by positivity
        rw [Nat.div_lt_iff_lt_mul hp]
        have : (10 : ℕ) ^ (k + 1) = 10 ^ k * 10 := by ring
        omega
      have hr : n % 10 ^ k < 10 ^ k := Nat.mod_lt _ (by positivity)
      rw [padN, List.cons_append, readN, if_pos (digitChar_isDigit hq),
        digitVal_digitChar hq, ih _ _ hr]
      congr 2
      have e : (10 * acc + n / 10 ^ k) * 10 ^ k + n % 10 ^ k
          = acc * 10 ^ (k + 1) + (10 ^ k * (n / 10 ^ k) + n % 10 ^ k) := by ring
      rw [e, Nat.div_add_mod]

theorem digitChar_ne (d : ℕ) : digitChar d ≠ 'Z' := by
  unfold digitChar; split <;> decide

theorem padN_mem_ne {k n : ℕ} {c : Char} (h : c ∈ padN k n) : c ≠ 'Z' := by
  induction k generalizing n with
  | zero => simp [padN] at h
  | succ k ih =>
      rw [padN] at h
      rcases List.mem_cons.mp h with h | h
      · subst h; exact digitChar_ne _
      · exact ih h

theorem parseIsoChars_isoChars {t : DateTime} (h : t.Valid) :
    parseIsoChars (isoChars t) = some t := by
  obtain ⟨y, mo, d, hh, mi, s, us⟩ := t
  have hv := h
  unfold DateTime.Valid DateTime.validb at hv
  simp only [Bool.and_eq_true, decide_eq_true_eq] at hv
  have hd31 : daysInMonth y mo ≤ 31 := daysInMonth_le y mo
  unfold parseIsoChars isoChars
  rw [readN_padN 4 y 0 (by omega)]
  simp only [Option.some_bind, Nat.zero_mul, Nat.zero_add, expectChar, if_true]
  rw [readN_padN 2 mo 0 (by omega)]
  simp only [Option.some_bind, Nat.zero_mul, Nat.zero_add, expectChar, if_true]
  rw [readN_padN 2 d 0 (by omega)]
  simp only [Option.some_bind, Nat.zero_mul, Nat.zero_add, expectChar, if_true]
  rw [readN_padN 2 hh 0 (by omega)]
  simp only [Option.some_bind, Nat.zero_mul, Nat.zero_add, expectChar, if_true]
  rw [readN_padN 2 mi 0 (by omega)]
  simp only [Option.some_bind, Nat.zero_mul, Nat.zero_add, expectChar, if_true]
  rw [readN_padN 2 s 0 (by omega)]
  simp only [Option.some_bind, Nat.zero_mul, Nat.zero_add]
  by_cases hus : us = 0
  · subst hus
    rw [if_pos rfl]
    simp only [List.append_nil, usecPart, Option.some_bind, if_true]
    have hb : DateTime.validb ⟨y, mo, d, hh, mi, s, 0⟩ = true := h
    rw [if_pos hb]
  · rw [if_neg hus]
    simp only [usecPart, Option.some_bind, if_true]
    have h6 : readN 6 0 (padN 6 us ++ []) = some (0 * 10 ^ 6 + us, []) :=
      readN_padN 6 us 0 (by omega) []
    rw [List.append_nil] at h6
    rw [h6]
    simp only [Option.some_bind, Nat.zero_mul, Nat.zero_add, if_true]
    have hb : DateTime.validb ⟨y, mo, d, hh, mi, s, us⟩ = true := h
    rw [if_pos hb]

theorem replaceZ_eq_self {cs : List Char} (h : ∀ c ∈ cs, c ≠ 'Z') : replaceZ cs = cs := by
  induction cs with
  | nil => rfl
  | cons c r ih =>
      rw [replaceZ, if_neg (h c (List.mem_cons_self c r))]
      rw [ih (fun x hx => h x (List.mem_cons_of_mem c hx))]

theorem isoChars_ne_Z (t : DateTime) : ∀ c ∈ isoChars t, c ≠ 'Z' := by
  have tailZ : ∀ c ∈ (if t.usec = 0 then [] else '.' :: padN 6 t.usec), c ≠ 'Z' := by
    by_cases hu : t.usec = 0
    · rw [if_pos hu]
      intro c h
      simp at h
    · rw [if_neg hu]
      intro c h
      rcases List.mem_cons.mp h with rfl | h
      · decide
      · exact padN_mem_ne h
  intro c h
  unfold isoChars at h
  simp only [List.mem_append, List.mem_cons] at h
  rcases h with h | h | h | h | h | h | h | h | h | h | h | h
  all_goals first
    | exact padN_mem_ne h
    | (subst h; decide)
    | exact tailZ c h

theorem parseCreatedAt_isoformat {t : DateTime} (h : t.Valid) :
    parseCreatedAt t.isoformat = some t := by
  unfold parseCreatedAt DateTime.isoformat
  rw [show (String.mk (isoChars t)).data = isoChars t from rfl,
    replaceZ_eq_self (isoChars_ne_Z t), parseIsoChars_isoChars h]

theorem mkRFPProposal_ok {pid filename content : Option String}
    {ext : List (String × String)} {sc : Option ℚ} {t : DateTime} {p : RFPProposal}
    (h : mkRFPProposal pid filename content ext sc t = .ok p) :
    p = ⟨pid, filename, content, ext, sc, t⟩ ∧
      RFPProposal.validate ⟨pid, filename, content, ext, sc, t⟩ = .ok () := by
  unfold mkRFPProposal at h
  revert h
  split
  · intro h
    cases h
  · rename_i heq
    intro h
    cases h
    exact ⟨rfl, heq⟩

theorem AnalysisResult.validate_ok_iff (a : AnalysisResult) :
    a.validate = .ok () ↔
      a.proposal_id ≠ "" ∧ a.criteria_scores ≠ [] ∧
      (∀ s, a.overall_score = some s → 0 ≤ s ∧ s ≤ 100) ∧
      (∀ x ∈ a.criteria_scores, 0 ≤ x.2 ∧ x.2 ≤ 100) := by
  unfold AnalysisResult.validate checkCriteriaScores
  constructor
  · intro h
    split at h
    · cases h
    · split at h
      · cases h
      · split at h
        · cases h
        · rename_i h1 h2 h3
          split at h
          · cases h
          · rename_i h4
            refine ⟨h1, fun he => h2 (by rw [he]; rfl), ?_, ?_⟩
            · intro s hs
              rw [hs] at h3
              simpa using h3
            · intro x hx
              have h5 := List.find?_eq_none.mp h4 x hx
              simpa using h5
  · rintro ⟨h1, h2, h3, h4⟩
    rw [if_neg h1, if_neg (by simpa [List.isEmpty_iff] using h2)]
    rw [if_neg ?_]
    · rw [List.find?_eq_none.mpr ?_]
      intro x hx
      simpa using h4 x hx
    · cases ho : a.overall_score with
      | none => simp
      | some s => simpa using h3 s ho

theorem mkAnalysisResult_ok {pid : String} {scores : List (String × ℚ)}
    {overall : Option ℚ} {st co : List String} {rank : Option ℤ} {t : DateTime}
    {a : AnalysisResult}
    (h : mkAnalysisResult pid scores overall st co rank t = .ok a) :
    AnalysisResult.validate ⟨pid, scores, overall, st, co, rank, t, false⟩ = .ok () ∧
      a = ⟨pid, scores,
            some ((overall.map fun q => q).getD (calculateOverallScore scores)),
            st, co, rank, t, true⟩ := by
  unfold mkAnalysisResult at h
  split at h
  · cases h
  · rename_i u heq
    cases u
    refine ⟨heq, ?_⟩
    cases overall with
    | none => cases h; rfl
    | some q => cases h; rfl

theorem loadConfig_ok {env : EnvMap} {rand : List (Fin 256)} {c : Config}
    (h : loadConfig env rand = .ok c) :
    ∃ apiKey bytes,
      getRequiredEnv env "ANTHROPIC_API_KEY" = .ok apiKey ∧
      parseFileSizeToBytes (getOptionalEnv env "MAX_FILE_SIZE" DEFAULT_MAX_FILE_SIZE) =
        .ok bytes ∧
      c = ⟨apiKey, getOptionalEnv env "FLASK_SECRET_KEY" (token_hex rand),
            getOptionalEnv env "MAX_FILE_SIZE" DEFAULT_MAX_FILE_SIZE,
            getOptionalEnv env "SUPPORTED_FILE_TYPES" DEFAULT_SUPPORTED_FILE_TYPES,
            bytes, true⟩ := by
  unfold loadConfig at h
  split at h
  · cases h
  · rename_i apiKey hreq
    dsimp only at h
    split at h
    · cases h
    · rename_i bytes hparse
      split at h
      · cases h
      · cases h
        exact ⟨apiKey, bytes, hreq, hparse, rfl⟩

theorem takeWhile_append_all {p : Char → Bool} : ∀ {l r : List Char},
    (∀ c ∈ l, p c = true) → (∀ c, r.head? = some c → p c = false) →
    (l ++ r).takeWhile p = l ∧ (l ++ r).dropWhile p = r := by
  intro l
  induction l with
  | nil =>
      intro r _ hr
      cases r with
      | nil => exact ⟨rfl, rfl⟩
      | cons c r' =>
          have hc := hr c rfl
          simp [List.takeWhile_cons, List.dropWhile_cons, hc]
  | cons a l' ih =>
      intro r hl hr
      have ha := hl a (List.mem_cons_self a l')
      have hih := ih (fun c hc => hl c (List.mem_cons_of_mem a hc)) hr
      simp [List.takeWhile_cons, List.dropWhile_cons, ha, hih.1, hih.2]

theorem unitTail_head {u : Option Char}
    (hu : ∀ c, u = some c → c = 'K' ∨ c = 'M' ∨ c = 'G' ∨ c = 'T') :
    ∀ c, (unitChars u ++ ['B']).head? = some c → c.isDigit = false ∧ c ≠ '.' := by
  cases u with
  | none =>
      intro c hc
      simp only [unitChars, List.nil_append, List.head?_cons, Option.some.injEq] at hc
      subst hc
      exact ⟨by decide, by decide⟩
  | some k =>
      rcases hu k rfl with rfl | rfl | rfl | rfl <;>
        · intro c hc
          simp only [unitChars, List.cons_append, List.head?_cons, Option.some.injEq] at hc
          subst hc
          exact ⟨by decide, by decide⟩

theorem sizeUnitTail_canonical {u : Option Char}
    (hu : ∀ c, u = some c → c = 'K' ∨ c = 'M' ∨ c = 'G' ∨ c = 'T') :
    sizeUnitTail (unitChars u ++ ['B']) = true := by
  cases u with
  | none => decide
  | some k => rcases hu k rfl with rfl | rfl | rfl | rfl <;> decide

theorem canonical_groups {ds fs : List Char} {u : Option Char}
    (hd : ∀ c ∈ ds, c.isDigit = true)
    (hf : ∀ c ∈ fs, c.isDigit = true)
    (hu : ∀ c, u = some c → c = 'K' ∨ c = 'M' ∨ c = 'G' ∨ c = 'T') :
    (ds ++ ((if fs = [] then [] else '.' :: fs) ++ (unitChars u ++ ['B']))).takeWhile
        Char.isDigit = ds ∧
    (ds ++ ((if fs = [] then [] else '.' :: fs) ++ (unitChars u ++ ['B']))).dropWhile
        Char.isDigit = (if fs = [] then [] else '.' :: fs) ++ (unitChars u ++ ['B']) ∧
    sizeFrac (ds ++ ((if fs = [] then [] else '.' :: fs) ++ (unitChars u ++ ['B']))) = fs ∧
    sizeRest (ds ++ ((if fs = [] then [] else '.' :: fs) ++ (unitChars u ++ ['B']))) =
      unitChars u ++ ['B'] := by
  have hY := unitTail_head hu
  have hnotdot : ¬ ((unitChars u ++ ['B']).head? = some '.') :=
    fun hc => (hY '.' hc).2 rfl
  by_cases hfs : fs = []
  · rw [if_pos hfs, List.nil_append]
    obtain ⟨ht, hdr⟩ := takeWhile_append_all hd (fun c hc => (hY c hc).1)
    refine ⟨ht, hdr, ?_, ?_⟩
    · unfold sizeFrac
      rw [hdr, if_neg hnotdot, hfs]
    · unfold sizeRest
      rw [hdr, if_neg hnotdot]
  · rw [if_neg hfs, List.cons_append]
    have hXhead : ∀ c, ('.' :: (fs ++ (unitChars u ++ ['B']))).head? = some c →
        Char.isDigit c = false := by
      intro c hc
      simp only [List.head?_cons, Option.some.injEq] at hc
      subst hc
      decide
    obtain ⟨ht, hdr⟩ := takeWhile_append_all hd hXhead
    obtain ⟨htf, hdf⟩ := takeWhile_append_all hf (fun c hc => (hY c hc).1)
    refine ⟨ht, hdr, ?_, ?_⟩
    · unfold sizeFrac
      rw [hdr]
      simp only [List.head?_cons, if_pos rfl, List.tail_cons]
      exact htf
    · unfold sizeRest
      rw [hdr]
      simp only [List.head?_cons, if_pos rfl, List.tail_cons]
      exact hdf

theorem sizeBody_canonical {ds fs : List Char} {u : Option Char}
    (hds : ds ≠ []) (hd : ∀ c ∈ ds, c.isDigit = true)
    (hf : ∀ c ∈ fs, c.isDigit = true)
    (hu : ∀ c, u = some c → c = 'K' ∨ c = 'M' ∨ c = 'G' ∨ c = 'T') :
    sizeBody (ds ++ ((if fs = [] then [] else '.' :: fs) ++ (unitChars u ++ ['B']))) = true := by
  obtain ⟨ht, hdr, hfr, hre⟩ := canonical_groups hd hf hu
  have hY := unitTail_head hu
  have hnotdot : ¬ ((unitChars u ++ ['B']).head? = some '.') :=
    fun hc => (hY '.' hc).2 rfl
  unfold sizeBody
  rw [ht, hdr, hfr, hre]
  have h1 : ds.isEmpty = false := by simpa [List.isEmpty_iff] using hds
  have h3 := sizeUnitTail_canonical hu
  by_cases hfs : fs = []
  · rw [if_pos hfs, List.nil_append, if_neg hnotdot]
    simp [h1, h3]
  · rw [if_neg hfs, List.cons_append, List.head?_cons, if_pos rfl]
    have h2 : fs.isEmpty = false := by simpa [List.isEmpty_iff] using hfs
    simp [h1, h2, h3]

theorem isValidFileSize_canonical {s : String} {ds fs : List Char} {u : Option Char}
    (hmap : s.data.map pyUpperChar =
      ds ++ ((if fs = [] then [] else '.' :: fs) ++ (unitChars u ++ ['B'])))
    (hds : ds ≠ []) (hd : ∀ c ∈ ds, c.isDigit = true)
    (hf : ∀ c ∈ fs, c.isDigit = true)
    (hu : ∀ c, u = some c → c = 'K' ∨ c = 'M' ∨ c = 'G' ∨ c = 'T') :
    isValidFileSize s = true := by
  unfold isValidFileSize pyMatchSize
  rw [hmap, sizeBody_canonical hds hd hf hu]
  rfl

theorem parse_canonical {s : String} {ds fs : List Char} {u : Option Char}
    (hmap : s.data.map pyUpperChar =
      ds ++ ((if fs = [] then [] else '.' :: fs) ++ (unitChars u ++ ['B'])))
    (hds : ds ≠ []) (hd : ∀ c ∈ ds, c.isDigit = true)
    (hf : ∀ c ∈ fs, c.isDigit = true)
    (hu : ∀ c, u = some c → c = 'K' ∨ c = 'M' ∨ c = 'G' ∨ c = 'T') :
    parseFileSizeToBytes s = .ok ((ratFloor (pyFloatVal ds fs * (specMultiplier u : ℚ))).toNat) := by
  obtain ⟨ht, hdr, hfr, hre⟩ := canonical_groups hd hf hu
  have hvalid := isValidFileSize_canonical hmap hds hd hf hu
  have hunit : FILE_SIZE_UNITS (sizeUnit (s.data.map pyUpperChar)) = specMultiplier u := by
    unfold sizeUnit
    rw [hmap, hre]
    cases u with
    | none => decide
    | some k => rcases hu k rfl with rfl | rfl | rfl | rfl <;> decide
  have hnum : sizeNumber (s.data.map pyUpperChar) = pyFloatVal ds fs := by
    unfold sizeNumber
    rw [hmap, ht, hfr]
  unfold parseFileSizeToBytes
  rw [if_neg (by simp [hvalid]), hnum, hunit]

/-! ### Newline-suffixed words of the size language

Python's `$` also accepts one trailing newline after the pattern, so the
canonical-decomposition analysis is repeated for words of the shape
`ds ++ fracPart ++ unitChars u ++ ['B', newline]`. -/

theorem unitTailN_head {u : Option Char}
    (hu : ∀ c, u = some c → c = 'K' ∨ c = 'M' ∨ c = 'G' ∨ c = 'T') :
    ∀ c, (unitChars u ++ ['B', '\n']).head? = some c → c.isDigit = false ∧ c ≠ '.' := by
  cases u with
  | none =>
      intro c hc
      simp only [unitChars, List.nil_append, List.head?_cons, Option.some.injEq] at hc
      subst hc
      exact ⟨by decide, by decide⟩
  | some k =>
      rcases hu k rfl with rfl | rfl | rfl | rfl <;>
        · intro c hc
          simp only [unitChars, List.cons_append, List.head?_cons, Option.some.injEq] at hc
          subst hc
          exact ⟨by decide, by decide⟩

theorem canonical_groups_newline {ds fs : List Char} {u : Option Char}
    (hd : ∀ c ∈ ds, c.isDigit = true)
    (hf : ∀ c ∈ fs, c.isDigit = true)
    (hu : ∀ c, u = some c → c = 'K' ∨ c = 'M' ∨ c = 'G' ∨ c = 'T') :
    (ds ++ ((if fs = [] then [] else '.' :: fs) ++ (unitChars u ++ ['B', '\n']))).takeWhile
        Char.isDigit = ds ∧
    sizeFrac (ds ++ ((if fs = [] then [] else '.' :: fs) ++ (unitChars u ++ ['B', '\n']))) = fs ∧
    sizeRest (ds ++ ((if fs = [] then [] else '.' :: fs) ++ (unitChars u ++ ['B', '\n']))) =
      unitChars u ++ ['B', '\n'] := by
  have hY := unitTailN_head hu
  have hnotdot : ¬ ((unitChars u ++ ['B', '\n']).head? = some '.') :=
    fun hc => (hY '.' hc).2 rfl
  by_cases hfs : fs = []
  · rw [if_pos hfs, List.nil_append]
    obtain ⟨ht, hdr⟩ := takeWhile_append_all hd (fun c hc => (hY c hc).1)
    refine ⟨ht, ?_, ?_⟩
    · unfold sizeFrac
      rw [hdr, if_neg hnotdot, hfs]
    · unfold sizeRest
      rw [hdr, if_neg hnotdot]
  · rw [if_neg hfs, List.cons_append]
    have hXhead : ∀ c, ('.' :: (fs ++ (unitChars u ++ ['B', '\n']))).head? = some c →
        Char.isDigit c = false := by
      intro c hc
      simp only [List.head?_cons, Option.some.injEq] at hc
      subst hc
      decide
    obtain ⟨ht, hdr⟩ := takeWhile_append_all hd hXhead
    obtain ⟨htf, hdf⟩ := takeWhile_append_all hf (fun c hc => (hY c hc).1)
    refine ⟨ht, ?_, ?_⟩
    · unfold sizeFrac
      rw [hdr]
      simp only [List.head?_cons, if_pos rfl, List.tail_cons]
      exact htf
    · unfold sizeRest
      rw [hdr]
      simp only [List.head?_cons, if_pos rfl, List.tail_cons]
      exact hdf

theorem newline_reassoc (ds pre yu : List Char) :
    ds ++ (pre ++ (yu ++ ['B', '\n'])) = (ds ++ (pre ++ (yu ++ ['B']))) ++ ['\n'] := by
  simp [List.append_assoc]

theorem isValidFileSize_newline {s : String} {ds fs : List Char} {u : Option Char}
    (hmap : s.data.map pyUpperChar =
      ds ++ ((if fs = [] then [] else '.' :: fs) ++ (unitChars u ++ ['B', '\n'])))
    (hds : ds ≠ []) (hd : ∀ c ∈ ds, c.isDigit = true)
    (hf : ∀ c ∈ fs, c.isDigit = true)
    (hu : ∀ c, u = some c → c = 'K' ∨ c = 'M' ∨ c = 'G' ∨ c = 'T') :
    isValidFileSize s = true := by
  unfold isValidFileSize pyMatchSize
  rw [hmap, newline_reassoc]
  apply Bool.or_eq_true_iff.mpr
  right
  rw [Bool.and_eq_true]
  refine ⟨?_, ?_⟩
  · rw [decide_eq_true_eq, List.getLast?_concat]
  · rw [List.dropLast_concat]
    exact sizeBody_canonical hds hd hf hu

theorem parse_canonical_newline {s : String} {ds fs : List Char} {u : Option Char}
    (hmap : s.data.map pyUpperChar =
      ds ++ ((if fs = [] then [] else '.' :: fs) ++ (unitChars u ++ ['B', '\n'])))
    (hds : ds ≠ []) (hd : ∀ c ∈ ds, c.isDigit = true)
    (hf : ∀ c ∈ fs, c.isDigit = true)
    (hu : ∀ c, u = some c → c = 'K' ∨ c = 'M' ∨ c = 'G' ∨ c = 'T') :
    parseFileSizeToBytes s = .ok ((ratFloor (pyFloatVal ds fs * (specMultiplier u : ℚ))).toNat) := by
  obtain ⟨ht, hfr, hre⟩ := canonical_groups_newline hd hf hu
  have hvalid := isValidFileSize_newline hmap hds hd hf hu
  have hunit : FILE_SIZE_UNITS (sizeUnit (s.data.map pyUpperChar)) = specMultiplier u := by
    unfold sizeUnit
    rw [hmap, hre]
    cases u with
    | none => decide
    | some k => rcases hu k rfl with rfl | rfl | rfl | rfl <;> decide
  have hnum : sizeNumber (s.data.map pyUpperChar) = pyFloatVal ds fs := by
    unfold sizeNumber
    rw [hmap, ht, hfr]
  unfold parseFileSizeToBytes
  rw [if_neg (by simp [hvalid]), hnum, hunit]

/-! ### Completeness: every accepted string decomposes canonically -/

theorem sizeUnitTail_inv {r : List Char} (h : sizeUnitTail r = true) :
    ∃ u : Option Char, r = unitChars u ++ ['B'] ∧
      ∀ c, u = some c → c = 'K' ∨ c = 'M' ∨ c = 'G' ∨ c = 'T' := by
  unfold sizeUnitTail at h
  split at h
  · exact ⟨none, rfl, fun c hc => Option.noConfusion hc⟩
  · rename_i k
    refine ⟨some k, rfl, fun c hc => ?_⟩
    injection hc with hc
    subst hc
    simpa [or_assoc] using h
  · exact Bool.noConfusion h

theorem sizeBody_inv {cs : List Char} (h : sizeBody cs = true) :
    ∃ (ds fs : List Char) (u : Option Char),
      cs = ds ++ ((if fs = [] then [] else '.' :: fs) ++ (unitChars u ++ ['B'])) ∧
      ds ≠ [] ∧ (∀ c ∈ ds, c.isDigit = true) ∧ (∀ c ∈ fs, c.isDigit = true) ∧
      (∀ c, u = some c → c = 'K' ∨ c = 'M' ∨ c = 'G' ∨ c = 'T') := by
  unfold sizeBody at h
  simp only [Bool.and_eq_true] at h
  obtain ⟨⟨h1, h2⟩, h3⟩ := h
  have hds_ne : cs.takeWhile Char.isDigit ≠ [] := by
    intro hnil
    rw [hnil] at h1
    exact Bool.noConfusion h1
  have hcs : cs.takeWhile Char.isDigit ++ cs.dropWhile Char.isDigit = cs := by simp
  have hdig : ∀ c ∈ cs.takeWhile Char.isDigit, c.isDigit = true :=
    fun c hc => List.mem_takeWhile_imp hc
  obtain ⟨u, hru, hu⟩ := sizeUnitTail_inv h3
  by_cases hdot : (cs.dropWhile Char.isDigit).head? = some '.'
  · rw [if_pos hdot] at h2
    have hfs_ne : sizeFrac cs ≠ [] := by
      intro hnil
      rw [hnil] at h2
      exact Bool.noConfusion h2
    have hffdig : ∀ c ∈ sizeFrac cs, c.isDigit = true := by
      intro c hc
      unfold sizeFrac at hc
      rw [if_pos hdot] at hc
      exact List.mem_takeWhile_imp hc
    have hr1 : cs.dropWhile Char.isDigit = '.' :: (cs.dropWhile Char.isDigit).tail := by
      cases hx : cs.dropWhile Char.isDigit with
      | nil => rw [hx] at hdot; exact Option.noConfusion hdot
      | cons a t =>
          rw [hx] at hdot
          simp only [List.head?_cons, Option.some.injEq] at hdot
          subst hdot
          rfl
    have htail : (cs.dropWhile Char.isDigit).tail = sizeFrac cs ++ sizeRest cs := by
      have hx : sizeFrac cs ++ sizeRest cs =
          (cs.dropWhile Char.isDigit).tail.takeWhile Char.isDigit ++
            (cs.dropWhile Char.isDigit).tail.dropWhile Char.isDigit := by
        unfold sizeFrac sizeRest
        rw [if_pos hdot, if_pos hdot]
      rw [hx]
      simp
    refine ⟨cs.takeWhile Char.isDigit, sizeFrac cs, u, ?_, hds_ne, hdig, hffdig, hu⟩
    rw [if_neg hfs_ne, List.cons_append, ← hru, ← htail, ← hr1]
    exact hcs.symm
  · have hre : sizeRest cs = cs.dropWhile Char.isDigit := by
      unfold sizeRest
      rw [if_neg hdot]
    refine ⟨cs.takeWhile Char.isDigit, [], u, ?_, hds_ne, hdig, ?_, hu⟩
    · rw [if_pos rfl, List.nil_append, ← hru, hre]
      exact hcs.symm
    · intro c hc
      cases hc

theorem parse_complete {s : String} (h : isValidFileSize s = true) :
    ∃ (ds fs : List Char) (u : Option Char),
      (s.data.map pyUpperChar =
          ds ++ ((if fs = [] then [] else '.' :: fs) ++ (unitChars u ++ ['B'])) ∨
        s.data.map pyUpperChar =
          ds ++ ((if fs = [] then [] else '.' :: fs) ++ (unitChars u ++ ['B', '\n']))) ∧
      ds ≠ [] ∧ (∀ c ∈ ds, c.isDigit = true) ∧ (∀ c ∈ fs, c.isDigit = true) ∧
      (∀ c, u = some c → c = 'K' ∨ c = 'M' ∨ c = 'G' ∨ c = 'T') ∧
      parseFileSizeToBytes s =
        .ok ((ratFloor (pyFloatVal ds fs * (specMultiplier u : ℚ))).toNat) := by
  have h' := h
  unfold isValidFileSize pyMatchSize at h'
  rcases Bool.or_eq_true_iff.mp h' with hb | h2
  · obtain ⟨ds, fs, u, hmap, hds, hd, hf, hu⟩ := sizeBody_inv hb
    exact ⟨ds, fs, u, Or.inl hmap, hds, hd, hf, hu, parse_canonical hmap hds hd hf hu⟩
  · rw [Bool.and_eq_true] at h2
    obtain ⟨hl, hb⟩ := h2
    rw [decide_eq_true_eq] at hl
    obtain ⟨ds, fs, u, hmap, hds, hd, hf, hu⟩ := sizeBody_inv hb
    have hfull : s.data.map pyUpperChar =
        (ds ++ ((if fs = [] then [] else '.' :: fs) ++ (unitChars u ++ ['B']))) ++ ['\n'] := by
      have hx := List.dropLast_append_getLast? '\n' hl
      rw [hmap] at hx
      exact hx.symm
    have hmap2 : s.data.map pyUpperChar =
        ds ++ ((if fs = [] then [] else '.' :: fs) ++ (unitChars u ++ ['B', '\n'])) := by
      rw [hfull, ← newline_reassoc]
    exact ⟨ds, fs, u, Or.inr hmap2, hds, hd, hf, hu, parse_canonical_newline hmap2 hds hd hf hu⟩

/-! ### Support lemmas for the size-validator characterization -/

theorem pyUpperChar_ne_newline {c : Char} (hc : c ≠ '\n') : pyUpperChar c ≠ '\n' := by
  unfold pyUpperChar
  cases hf : casePairs.find? (fun p => p.1 = c) with
  | none => simpa using hc
  | some p =>
      have hmem := List.mem_of_find?_eq_some hf
      have hp : ∀ q ∈ casePairs, q.2 ≠ '\n' := by decide
      simpa using hp p hmem

theorem pyUpperChar_eq_newline {c : Char} : pyUpperChar c = '\n' ↔ c = '\n' := by
  constructor
  · intro h
    by_contra hc
    exact pyUpperChar_ne_newline hc h
  · intro h
    subst h
    decide

/-- The amended characterization of `_is_valid_file_size`: the strict pattern
language, or the strict language followed by one trailing newline (Python's
`$` rule). -/
theorem isValidFileSize_iff (s : String) :
    isValidFileSize s = true ↔
      (specSizeMatch s = true ∨
        (s.data.getLast? = some '\n' ∧ specSizeMatch (String.mk s.data.dropLast) = true)) := by
  unfold isValidFileSize pyMatchSize specSizeMatch
  have hdrop : (String.mk s.data.dropLast).data.map pyUpperChar =
      (s.data.map pyUpperChar).dropLast := by
    rw [show (String.mk s.data.dropLast).data = s.data.dropLast from rfl, List.map_dropLast]
  constructor
  · intro h
    rcases Bool.or_eq_true_iff.mp h with h1 | h2
    · exact Or.inl h1
    · rw [Bool.and_eq_true] at h2
      obtain ⟨hl, hb⟩ := h2
      rw [decide_eq_true_eq, List.getLast?_map] at hl
      right
      cases hg : s.data.getLast? with
      | none => rw [hg] at hl; cases hl
      | some c =>
          rw [hg] at hl
          simp only [Option.map_some'] at hl
          have hc : c = '\n' := pyUpperChar_eq_newline.mp (Option.some.injEq _ _ ▸ hl)
          refine ⟨by rw [hc], ?_⟩
          rw [hdrop]
          exact hb
  · intro h
    apply Bool.or_eq_true_iff.mpr
    rcases h with h1 | ⟨hl, hb⟩
    · exact Or.inl h1
    · right
      rw [Bool.and_eq_true]
      refine ⟨?_, by rw [← hdrop]; exact hb⟩
      rw [decide_eq_true_eq, List.getLast?_map, hl]
      rfl

/-! ### Support lemmas for the weighted-score bounds -/

theorem ratFloor_eq_floor (q : ℚ) : ratFloor q = ⌊q⌋ := Rat.floor_def.symm

theorem rhe_nonneg {x : ℚ} (h : 0 ≤ x) : 0 ≤ rhe x := by
  have h0 : (0 : ℤ) ≤ ⌊x⌋ := Int.floor_nonneg.mpr h
  unfold rhe
  rw [ratFloor_eq_floor]
  split_ifs <;> omega

theorem rhe_le {x : ℚ} {m : ℤ} (h : x ≤ (m : ℚ)) : rhe x ≤ m := by
  have hf : ⌊x⌋ ≤ m := by
    have hx := Int.floor_le_floor h
    simpa using hx
  have hlt : ¬ (x - ⌊x⌋ < 1 / 2) → ⌊x⌋ < m := by
    intro h1
    rcases lt_or_eq_of_le hf with h' | h'
    · exact h'
    · exfalso
      apply h1
      rw [h']
      have : x - (m : ℚ) ≤ 0 := sub_nonpos.mpr h
      linarith
  unfold rhe
  rw [ratFloor_eq_floor]
  split_ifs with h1 h2 h3
  · exact hf
  · have := hlt h1; omega
  · exact hf
  · have := hlt h1; omega

theorem round2_bounds {x : ℚ} (h0 : 0 ≤ x) (h1 : x ≤ 100) :
    0 ≤ round2 x ∧ round2 x ≤ 100 := by
  have ha : (0 : ℤ) ≤ rhe (x * 100) := rhe_nonneg (by positivity)
  have hb : rhe (x * 100) ≤ (10000 : ℤ) := rhe_le (by push_cast; linarith)
  unfold round2
  constructor
  · apply div_nonneg _ (by norm_num : (0 : ℚ) ≤ 100)
    exact_mod_cast ha
  · rw [div_le_iff₀ (by norm_num : (0 : ℚ) < 100)]
    calc ((rhe (x * 100) : ℤ) : ℚ) ≤ ((10000 : ℤ) : ℚ) := by exact_mod_cast hb
      _ = 100 * 100 := by norm_num

theorem criteriaWeight_pos {n : ℕ} (hn : 0 < n) (c : String) : 0 < criteriaWeight n c := by
  have hnq : (0 : ℚ) < (n : ℚ) := by exact_mod_cast hn
  unfold criteriaWeight DEFAULT_CRITERIA_WEIGHTS
  split_ifs <;> simp only [Option.getD_some, Option.getD_none] <;> positivity

theorem totalWeight_pos {scores : List (String × ℚ)} (h : scores ≠ []) :
    0 < totalWeight scores := by
  unfold totalWeight
  apply List.sum_pos
  · intro a ha
    rcases List.mem_map.mp ha with ⟨x, _, rfl⟩
    exact criteriaWeight_pos (List.length_pos.mpr h) x.1
  · simpa using h

theorem criteriaWeight_eq_specWeight (n : ℕ) (c : String) :
    criteriaWeight n c = specWeight n c := by
  unfold criteriaWeight DEFAULT_CRITERIA_WEIGHTS specWeight
  split_ifs <;> rfl

theorem hexDigitChar_hex {n : ℕ} (h : n < 16) : isHexLowerChar (hexDigitChar n) = true := by
  interval_cases n <;> decide

theorem token_hex_length (bs : List (Fin 256)) : (token_hex bs).length = 2 * bs.length := by
  show (bs.foldr _ []).length = 2 * bs.length
  induction bs with
  | nil => rfl
  | cons b bs ih =>
      simp only [List.foldr_cons, List.length_cons, ih]
      omega

theorem token_hex_chars (bs : List (Fin 256)) :
    ∀ c ∈ (token_hex bs).data, isHexLowerChar c = true := by
  show ∀ c ∈ bs.foldr _ [], _
  induction bs with
  | nil =>
      intro c hc
      simp at hc
  | cons b bs ih =>
      intro c hc
      simp only [List.foldr_cons, List.mem_cons] at hc
      rcases hc with rfl | rfl | hc
      · exact hexDigitChar_hex (by omega)
      · exact hexDigitChar_hex (by omega)
      · exact ih c hc

/-! ### Concrete-evaluation helpers

Rational arithmetic does not evaluate by kernel reduction in this toolchain
(`Rat.mul` normalizes through well-founded `Nat.gcd`), so concrete values
are established through these lemmas instead of `decide`. -/

theorem rhe_eq_of_eq_intCast {x : ℚ} {n : ℤ} (h : x = (n : ℚ)) : rhe x = n := by
  subst h
  unfold rhe
  rw [ratFloor_eq_floor, Int.floor_intCast]
  rw [if_pos (by norm_num)]

theorem round2_eq_of_mul_hundred (n : ℤ) {x : ℚ} (h : x * 100 = (n : ℚ)) :
    round2 x = (n : ℚ) / 100 := by
  unfold round2
  rw [rhe_eq_of_eq_intCast h]

theorem Config.validate_ok (c : Config)
    (h1 : pyStartsWith c.anthropic_api_key "sk-" = true)
    (h2 : isValidFileSize c.max_file_size = true)
    (h3 : pyStartsWith c.supported_file_types "." = true) :
    Config.validate c = .ok () := by
  unfold Config.validate
  rw [if_neg (by simp [h1]), if_neg (by simp [h2]), if_neg (by simp [h3])]

theorem loadConfig_eval {env : EnvMap} {rand : List (Fin 256)} {a m t : String}
    (ha : getRequiredEnv env "ANTHROPIC_API_KEY" = .ok a)
    (hm : getOptionalEnv env "MAX_FILE_SIZE" DEFAULT_MAX_FILE_SIZE = m)
    (ht : getOptionalEnv env "SUPPORTED_FILE_TYPES" DEFAULT_SUPPORTED_FILE_TYPES = t)
    {bytes : ℕ} (hp : parseFileSizeToBytes m = .ok bytes)
    (h1 : pyStartsWith a "sk-" = true) (h2 : isValidFileSize m = true)
    (h3 : pyStartsWith t "." = true) :
    loadConfig env rand =
      .ok ⟨a, getOptionalEnv env "FLASK_SECRET_KEY" (token_hex rand), m, t, bytes, true⟩ := by
  unfold loadConfig
  rw [ha]
  dsimp only
  rw [hm, ht, hp]
  dsimp only
  rw [Config.validate_ok _ h1 h2 h3]

/-- Evaluation of `parseToBytes("10MB")`: 10 × 1024² = 10485760. -/
theorem parse_ten_MB : parseFileSizeToBytes "10MB" = .ok 10485760 := by
  have h := @parse_canonical "10MB" ['1', '0'] [] (some 'M')
    (by decide) (by decide) (by decide) (by decide)
    (by intro c hc; injection hc with hc; subst hc; decide)
  rw [h]
  have hds : digitsToNat ['1', '0'] = 10 := by decide
  have hfs : digitsToNat ([] : List Char) = 0 := by decide
  have hv : pyFloatVal ['1', '0'] [] * (specMultiplier (some 'M') : ℚ) =
      ((10485760 : ℤ) : ℚ) := by
    unfold pyFloatVal specMultiplier
    rw [hds, hfs]
    norm_num
  rw [show ratFloor (pyFloatVal ['1', '0'] [] * (specMultiplier (some 'M') : ℚ)) =
      (10485760 : ℤ) from by rw [ratFloor_eq_floor, hv, Int.floor_intCast]]
  rfl

/-! ## Claim theorems -/

/-- C1 (amended): every finalized Configuration and AnalysisRecord rejects
every attempted field assignment with the ImmutableViolation error of its
class, leaving the object unchanged (no updated object is produced).  The
claim's further assertion that ProposalRecord behaves the same is false —
see the counterexample: `RFPProposal` has no write guard. -/
theorem claim1_immutability :
    (∀ (env : EnvMap) (rand : List (Fin 256)) (c : Config),
        loadConfig env rand = .ok c →
        ∀ (name : String) (upd : Config → Config),
          Config.setattr c name upd = .error (.frozenWrite name) ∧
            (ConfigError.frozenWrite name).kind = .immutableViolation) ∧
    (∀ (pid : String) (scores : List (String × ℚ)) (overall : Option ℚ)
        (st co : List String) (rank : Option ℤ) (t : DateTime) (a : AnalysisResult),
        mkAnalysisResult pid scores overall st co rank t = .ok a →
        ∀ upd : AnalysisResult → AnalysisResult,
          AnalysisResult.setattr a upd = .error .immutableAnalysis ∧
            ModelError.immutableAnalysis.kind = .immutableViolation) := by
  constructor
  · intro env rand c h name upd
    obtain ⟨apiKey, bytes, _, _, hc⟩ := loadConfig_ok h
    subst hc
    exact ⟨rfl, rfl⟩
  · intro pid scores overall st co rank t a h upd
    obtain ⟨_, ha⟩ := mkAnalysisResult_ok h
    subst ha
    exact ⟨rfl, rfl⟩

/-- C1 witness: a concrete loaded configuration and a concrete analysis
record both reject a write. -/
theorem claim1_witness :
    Config.setattr ⟨"sk-abc", "", "10MB", ".pdf", 10485760, true⟩ "max_file_size"
        (fun c => c) = .error (.frozenWrite "max_file_size") ∧
      (ConfigError.frozenWrite "max_file_size").kind = .immutableViolation :=
  claim1_immutability.1 (fun k => if k = "ANTHROPIC_API_KEY" then some "sk-abc" else none) []
    ⟨"sk-abc", "", "10MB", ".pdf", 10485760, true⟩
    (loadConfig_eval (by decide) (by decide) (by decide) parse_ten_MB (by decide) (by decide)
      (by decide))
    "max_file_size" (fun c => c)

/-- C1 counterexample: a validly constructed `RFPProposal` accepts a field
assignment (Python's default `__setattr__`): the write succeeds and returns a
changed object instead of failing with ImmutableViolation. -/
theorem claim1_counterexample :
    mkRFPProposal (some "p1") (some "doc.pdf") (some "hello") [] none
        ⟨2024, 5, 6, 7, 8, 9, 0⟩ =
      .ok ⟨some "p1", some "doc.pdf", some "hello", [], none, ⟨2024, 5, 6, 7, 8, 9, 0⟩⟩ ∧
    RFPProposal.setattr
        ⟨some "p1", some "doc.pdf", some "hello", [], none, ⟨2024, 5, 6, 7, 8, 9, 0⟩⟩
        (fun p => { p with analysis_score := some 55 }) =
      .ok ⟨some "p1", some "doc.pdf", some "hello", [], some 55, ⟨2024, 5, 6, 7, 8, 9, 0⟩⟩ ∧
    (⟨some "p1", some "doc.pdf", some "hello", [], some 55, ⟨2024, 5, 6, 7, 8, 9, 0⟩⟩ :
        RFPProposal) ≠
      ⟨some "p1", some "doc.pdf", some "hello", [], none, ⟨2024, 5, 6, 7, 8, 9, 0⟩⟩ := by
  refine ⟨by decide, rfl, by decide⟩

/-- C6: with the other required fields valid, filename `"../../etc/passwd"`
fails construction with the path-traversal error (SecurityRejected),
`"report.docx"` fails with the extension error (InvalidFormat), and any
filename containing `../` or a backslash fails with the path-traversal error
regardless of its extension — the traversal check runs first. -/
theorem claim6_filename_validation :
    (∀ (pid content : String) (ext : List (String × String)) (sc : Option ℚ) (t : DateTime),
        pid ≠ "" → content ≠ "" →
        mkRFPProposal (some pid) (some "../../etc/passwd") (some content) ext sc t =
          .error .pathTraversal) ∧
    (∀ (pid content : String) (ext : List (String × String)) (sc : Option ℚ) (t : DateTime),
        pid ≠ "" → content ≠ "" →
        mkRFPProposal (some pid) (some "report.docx") (some content) ext sc t =
          .error .badExtension) ∧
    (∀ (pid filename content : String) (ext : List (String × String)) (sc : Option ℚ)
        (t : DateTime),
        pid ≠ "" → filename ≠ "" → content ≠ "" → hasTraversal filename = true →
        mkRFPProposal (some pid) (some filename) (some content) ext sc t =
          .error .pathTraversal) ∧
    ModelError.pathTraversal.kind = .securityRejected ∧
    ModelError.badExtension.kind = .invalidFormat := by
  refine ⟨?_, ?_, ?_, rfl, rfl⟩
  · intro pid content ext sc t hpid hcontent
    have hv : RFPProposal.validate
        ⟨some pid, some "../../etc/passwd", some content, ext, sc, t⟩ =
        .error .pathTraversal := by
      unfold RFPProposal.validate
      simp only [Option.getD_some]
      rw [if_neg hpid, if_neg (by decide : ¬("../../etc/passwd" = "")), if_neg hcontent,
        if_pos (by decide : hasTraversal "../../etc/passwd" = true)]
    unfold mkRFPProposal
    rw [hv]
  · intro pid content ext sc t hpid hcontent
    have hv : RFPProposal.validate
        ⟨some pid, some "report.docx", some content, ext, sc, t⟩ =
        .error .badExtension := by
      unfold RFPProposal.validate
      simp only [Option.getD_some]
      rw [if_neg hpid, if_neg (by decide : ¬("report.docx" = "")), if_neg hcontent,
        if_neg (by decide : ¬(hasTraversal "report.docx" = true)),
        if_pos (by decide : ¬(isPdfFilename "report.docx" = true))]
    unfold mkRFPProposal
    rw [hv]
  · intro pid filename content ext sc t hpid hfn hcontent htrav
    have hv : RFPProposal.validate
        ⟨some pid, some filename, some content, ext, sc, t⟩ =
        .error .pathTraversal := by
      unfold RFPProposal.validate
      simp only [Option.getD_some]
      rw [if_neg hpid, if_neg hfn, if_neg hcontent, if_pos htrav]
    unfold mkRFPProposal
    rw [hv]

/-- C6 witness: the two scenario filenames, plus a filename violating both
the traversal and the extension rule, at concrete fields. -/
theorem claim6_witness :
    mkRFPProposal (some "p1") (some "../../etc/passwd") (some "x") [] none
        ⟨2024, 1, 1, 0, 0, 0, 0⟩ = .error .pathTraversal ∧
    mkRFPProposal (some "p1") (some "report.docx") (some "x") [] none
        ⟨2024, 1, 1, 0, 0, 0, 0⟩ = .error .badExtension ∧
    mkRFPProposal (some "p1") (some "../evil.docx") (some "x") [] none
        ⟨2024, 1, 1, 0, 0, 0, 0⟩ = .error .pathTraversal :=
  ⟨claim6_filename_validation.1 "p1" "x" [] none _ (by decide) (by decide),
   claim6_filename_validation.2.1 "p1" "x" [] none _ (by decide) (by decide),
   claim6_filename_validation.2.2.1 "p1" "../evil.docx" "x" [] none _ (by decide) (by decide)
     (by decide) (by decide)⟩

/-- C7: a content string of exactly 10,000,000 characters passes construction
(with the other fields valid) and one of 10,000,001 characters fails with the
content-too-large error, whose kind is SecurityRejected: the bound is
inclusive. -/
theorem claim7_content_bound :
    (∀ (content : String) (t : DateTime), content.length = 10000000 →
        mkRFPProposal (some "p1") (some "doc.pdf") (some content) [] none t =
          .ok ⟨some "p1", some "doc.pdf", some content, [], none, t⟩) ∧
    (∀ (content : String) (t : DateTime), content.length = 10000001 →
        mkRFPProposal (some "p1") (some "doc.pdf") (some content) [] none t =
          .error .contentTooLarge) ∧
    ModelError.contentTooLarge.kind = .securityRejected := by
  refine ⟨?_, ?_, rfl⟩
  · intro content t hlen
    have hne : content ≠ "" := by
      intro he
      rw [he] at hlen
      exact absurd hlen (by decide)
    have hv : RFPProposal.validate
        ⟨some "p1", some "doc.pdf", some content, [], none, t⟩ = .ok () := by
      unfold RFPProposal.validate
      simp only [Option.getD_some]
      rw [if_neg (by decide : ¬("p1" = "")), if_neg (by decide : ¬("doc.pdf" = "")),
        if_neg hne, if_neg (by decide : ¬(hasTraversal "doc.pdf" = true)),
        if_neg (by decide : ¬¬(isPdfFilename "doc.pdf" = true)),
        if_neg (by unfold MAX_CONTENT_LENGTH; omega)]
    unfold mkRFPProposal
    rw [hv]
  · intro content t hlen
    have hne : content ≠ "" := by
      intro he
      rw [he] at hlen
      exact absurd hlen (by decide)
    have hv : RFPProposal.validate
        ⟨some "p1", some "doc.pdf", some content, [], none, t⟩ =
        .error .contentTooLarge := by
      unfold RFPProposal.validate
      simp only [Option.getD_some]
      rw [if_neg (by decide : ¬("p1" = "")), if_neg (by decide : ¬("doc.pdf" = "")),
        if_neg hne, if_neg (by decide : ¬(hasTraversal "doc.pdf" = true)),
        if_neg (by decide : ¬¬(isPdfFilename "doc.pdf" = true)),
        if_pos (by unfold MAX_CONTENT_LENGTH; omega)]
    unfold mkRFPProposal
    rw [hv]

/-- C7 witness: concrete contents of the two boundary lengths. -/
theorem claim7_witness :
    mkRFPProposal (some "p1") (some "doc.pdf")
        (some (String.mk (List.replicate 10000000 'a'))) [] none ⟨2024, 1, 1, 0, 0, 0, 0⟩ =
      .ok ⟨some "p1", some "doc.pdf", some (String.mk (List.replicate 10000000 'a')), [],
        none, ⟨2024, 1, 1, 0, 0, 0, 0⟩⟩ ∧
    mkRFPProposal (some "p1") (some "doc.pdf")
        (some (String.mk (List.replicate 10000001 'a'))) [] none ⟨2024, 1, 1, 0, 0, 0, 0⟩ =
      .error .contentTooLarge :=
  ⟨claim7_content_bound.1 _ _ (by
      show (List.replicate 10000000 'a').length = 10000000
      exact List.length_replicate _ _),
   claim7_content_bound.2.1 _ _ (by
      show (List.replicate 10000001 'a').length = 10000001
      exact List.length_replicate _ _)⟩

/-- C2: when no overallScore is supplied, the computed score is
`(Σ sᵢ·wᵢ) / (Σ wᵢ)` rounded to two decimals, with the claim's weight table
(`specWeight`: price 0.30, technical_approach 0.25, experience 0.20,
timeline 0.15, risk 0.10, equal-share `1/N` fallback); in particular the two
scenario records compute 81.75 and 50.0. -/
theorem claim2_overall_score :
    (∀ (pid : String) (scores : List (String × ℚ)) (st co : List String)
        (rank : Option ℤ) (t : DateTime) (a : AnalysisResult),
        mkAnalysisResult pid scores none st co rank t = .ok a →
        a.overall_score = some (round2
          ((scores.map fun x => x.2 * specWeight scores.length x.1).sum /
            (scores.map fun x => specWeight scores.length x.1).sum))) ∧
    (∀ t : DateTime,
        (mkAnalysisResult "p1"
            [("price", 80), ("technical_approach", 90), ("experience", 85),
              ("timeline", 75), ("risk", 70)] none [] [] none t).map
          (fun a => a.overall_score) = .ok (some (8175 / 100))) ∧
    (∀ t : DateTime,
        (mkAnalysisResult "p1" [("custom_a", 100), ("custom_b", 0)] none [] [] none t).map
          (fun a => a.overall_score) = .ok (some 50)) := by
  have hmapW : ∀ (scores : List (String × ℚ)),
      (scores.map fun x => x.2 * criteriaWeight scores.length x.1) =
        (scores.map fun x => x.2 * specWeight scores.length x.1) ∧
      (scores.map fun x => criteriaWeight scores.length x.1) =
        (scores.map fun x => specWeight scores.length x.1) := by
    intro scores
    constructor <;> exact List.map_congr_left fun x _ => by
      rw [criteriaWeight_eq_specWeight]
  refine ⟨?_, ?_, ?_⟩
  · intro pid scores st co rank t a h
    obtain ⟨hval, ha⟩ := mkAnalysisResult_ok h
    have hne : scores ≠ [] := ((AnalysisResult.validate_ok_iff _).mp hval).2.1
    subst ha
    show some (calculateOverallScore scores) = _
    unfold calculateOverallScore
    rw [if_pos (totalWeight_pos hne)]
    unfold totalScore totalWeight
    rw [(hmapW scores).1, (hmapW scores).2]
  · intro t
    have hval : AnalysisResult.validate
        ⟨"p1", [("price", 80), ("technical_approach", 90), ("experience", 85),
          ("timeline", 75), ("risk", 70)], none, [], [], none, t, false⟩ = .ok () := by
      apply (AnalysisResult.validate_ok_iff _).mpr
      dsimp only
      refine ⟨by decide, by simp, ?_, ?_⟩
      · intro s hs
        cases hs
      · intro x hx
        simp only [List.mem_cons, List.not_mem_nil, or_false] at hx
        rcases hx with rfl | rfl | rfl | rfl | rfl <;> norm_num
    have hcalc : calculateOverallScore
        [("price", 80), ("technical_approach", 90), ("experience", 85),
          ("timeline", 75), ("risk", 70)] = 8175 / 100 := by
      unfold calculateOverallScore
      rw [if_pos (totalWeight_pos (by simp))]
      have hts : totalScore
          [("price", 80), ("technical_approach", 90), ("experience", 85),
            ("timeline", 75), ("risk", 70)] = 327 / 4 := by
        unfold totalScore criteriaWeight DEFAULT_CRITERIA_WEIGHTS
        simp
        norm_num
      have htw : totalWeight
          [("price", 80), ("technical_approach", 90), ("experience", 85),
            ("timeline", 75), ("risk", 70)] = 1 := by
        unfold totalWeight criteriaWeight DEFAULT_CRITERIA_WEIGHTS
        simp
        norm_num
      rw [round2_eq_of_mul_hundred 8175 (by rw [hts, htw]; norm_num)]
      norm_num
    unfold mkAnalysisResult
    rw [hval]
    dsimp only [Except.map]
    rw [hcalc]
  · intro t
    have hval : AnalysisResult.validate
        ⟨"p1", [("custom_a", 100), ("custom_b", 0)], none, [], [], none, t, false⟩ =
        .ok () := by
      apply (AnalysisResult.validate_ok_iff _).mpr
      dsimp only
      refine ⟨by decide, by simp, ?_, ?_⟩
      · intro s hs
        cases hs
      · intro x hx
        simp only [List.mem_cons, List.not_mem_nil, or_false] at hx
        rcases hx with rfl | rfl <;> norm_num
    have hcalc : calculateOverallScore [("custom_a", 100), ("custom_b", 0)] = 50 := by
      unfold calculateOverallScore
      rw [if_pos (totalWeight_pos (by simp))]
      have hts : totalScore [("custom_a", 100), ("custom_b", 0)] = 50 := by
        unfold totalScore criteriaWeight DEFAULT_CRITERIA_WEIGHTS
        simp
        norm_num
      have htw : totalWeight [("custom_a", 100), ("custom_b", 0)] = 1 := by
        unfold totalWeight criteriaWeight DEFAULT_CRITERIA_WEIGHTS
        simp
        norm_num
      rw [round2_eq_of_mul_hundred 5000 (by rw [hts, htw]; norm_num)]
      norm_num
    unfold mkAnalysisResult
    rw [hval]
    dsimp only [Except.map]
    rw [hcalc]

/-- C2 witness: the first scenario record, through the general formula. -/
theorem claim2_witness :
    (⟨"p1", [("price", 80), ("technical_approach", 90), ("experience", 85),
        ("timeline", 75), ("risk", 70)], some (8175 / 100), [], [], none,
      ⟨2024, 3, 4, 5, 6, 7, 8⟩, true⟩ : AnalysisResult).overall_score =
      some (round2
        (([(("price" : String), (80 : ℚ)), ("technical_approach", 90), ("experience", 85),
            ("timeline", 75), ("risk", 70)].map fun x => x.2 * specWeight 5 x.1).sum /
          ([(("price" : String), (80 : ℚ)), ("technical_approach", 90), ("experience", 85),
            ("timeline", 75), ("risk", 70)].map fun x => specWeight 5 x.1).sum)) := by
  have h := claim2_overall_score.1 "p1"
    [("price", 80), ("technical_approach", 90), ("experience", 85),
      ("timeline", 75), ("risk", 70)] [] [] none ⟨2024, 3, 4, 5, 6, 7, 8⟩
    ⟨"p1", [("price", 80), ("technical_approach", 90), ("experience", 85),
        ("timeline", 75), ("risk", 70)], some (8175 / 100), [], [], none,
      ⟨2024, 3, 4, 5, 6, 7, 8⟩, true⟩ ?_
  · exact h
  · have hv := claim2_overall_score.2.1 ⟨2024, 3, 4, 5, 6, 7, 8⟩
    revert hv
    cases hmk : mkAnalysisResult "p1"
        [("price", 80), ("technical_approach", 90), ("experience", 85),
          ("timeline", 75), ("risk", 70)] none [] [] none ⟨2024, 3, 4, 5, 6, 7, 8⟩ with
    | error e => intro hv; cases hv
    | ok a =>
        intro hv
        obtain ⟨hval, ha⟩ := mkAnalysisResult_ok hmk
        subst ha
        dsimp only [Except.map] at hv
        injection hv with hv
        injection hv with hv
        rw [hv]

/-- C10: every successfully constructed AnalysisRecord carries a
non-null overallScore in [0, 100] — supplied or computed — and the total
weight of the computation is strictly positive, so the zero-weight fallback
branch is unreachable for non-empty criteria. -/
theorem claim10_score_invariant :
    ∀ (pid : String) (scores : List (String × ℚ)) (overall : Option ℚ)
      (st co : List String) (rank : Option ℤ) (t : DateTime) (a : AnalysisResult),
      mkAnalysisResult pid scores overall st co rank t = .ok a →
      (∃ q : ℚ, a.overall_score = some q ∧ 0 ≤ q ∧ q ≤ 100) ∧ 0 < totalWeight scores := by
  intro pid scores overall st co rank t a h
  obtain ⟨hval, ha⟩ := mkAnalysisResult_ok h
  obtain ⟨hpid, hne, hover, hsc⟩ := (AnalysisResult.validate_ok_iff _).mp hval
  have htw := totalWeight_pos hne
  refine ⟨?_, htw⟩
  subst ha
  cases overall with
  | some q =>
      exact ⟨q, rfl, hover q rfl⟩
  | none =>
      refine ⟨calculateOverallScore scores, rfl, ?_⟩
      unfold calculateOverallScore
      rw [if_pos htw]
      have hw0 : ∀ x ∈ scores, (0 : ℚ) ≤ criteriaWeight scores.length x.1 :=
        fun x _ => (criteriaWeight_pos (List.length_pos.mpr hne) x.1).le
      have hts0 : 0 ≤ totalScore scores := by
        unfold totalScore
        apply List.sum_nonneg
        intro b hb
        rcases List.mem_map.mp hb with ⟨x, hx, rfl⟩
        exact mul_nonneg (hsc x hx).1 (hw0 x hx)
      have htsle : totalScore scores ≤ 100 * totalWeight scores := by
        unfold totalScore totalWeight
        rw [← List.sum_map_mul_left]
        apply List.sum_le_sum
        intro x hx
        exact mul_le_mul_of_nonneg_right (hsc x hx).2 (hw0 x hx)
      exact round2_bounds (div_nonneg hts0 htw.le) ((div_le_iff₀ htw).mpr htsle)

/-- C10 witness: a concrete record with an explicit score. -/
theorem claim10_witness :
    (∃ q : ℚ, (⟨"p1", [("price", 50)], some 50, [], [], none, ⟨2024, 3, 4, 5, 6, 7, 8⟩,
        true⟩ : AnalysisResult).overall_score = some q ∧ 0 ≤ q ∧ q ≤ 100) ∧
      0 < totalWeight [(("price" : String), (50 : ℚ))] := by
  apply claim10_score_invariant "p1" [("price", 50)] (some 50) [] [] none
    ⟨2024, 3, 4, 5, 6, 7, 8⟩
  unfold mkAnalysisResult
  rw [show AnalysisResult.validate
      ⟨"p1", [("price", 50)], some 50, [], [], none, ⟨2024, 3, 4, 5, 6, 7, 8⟩, false⟩ =
      .ok () from (AnalysisResult.validate_ok_iff _).mpr (by
    dsimp only
    refine ⟨by decide, by simp, fun s hs => ?_, fun x hx => ?_⟩
    · injection hs with hs
      subst hs
      norm_num
    · simp only [List.mem_cons, List.not_mem_nil, or_false] at hx
      subst hx
      norm_num)]

/-- C4: `fromMap ∘ toMap` is the identity on every successfully constructed
ProposalRecord — construction succeeds again and every field round-trips,
the timestamp at the microsecond precision `isoformat` serializes. -/
theorem claim4_proposal_roundtrip :
    ∀ (pid filename content : Option String) (ext : List (String × String))
      (sc : Option ℚ) (t : DateTime) (p : RFPProposal),
      t.Valid → mkRFPProposal pid filename content ext sc t = .ok p →
      RFPProposal.from_dict p.to_dict = .ok p := by
  intro pid filename content ext sc t p ht h
  obtain ⟨hp, hval⟩ := mkRFPProposal_ok h
  subst hp
  unfold RFPProposal.from_dict RFPProposal.to_dict
  dsimp only
  rw [parseCreatedAt_isoformat ht]
  exact h

/-- C4 witness: a concrete proposal (with a nonzero microsecond field, so
the fractional part of the timestamp is exercised). -/
theorem claim4_witness :
    RFPProposal.from_dict (RFPProposal.to_dict
        ⟨some "p1", some "doc.pdf", some "hello", [("k", "v")], none,
          ⟨2024, 1, 2, 3, 4, 5, 123456⟩⟩) =
      .ok ⟨some "p1", some "doc.pdf", some "hello", [("k", "v")], none,
        ⟨2024, 1, 2, 3, 4, 5, 123456⟩⟩ :=
  claim4_proposal_roundtrip (some "p1") (some "doc.pdf") (some "hello") [("k", "v")] none
    ⟨2024, 1, 2, 3, 4, 5, 123456⟩ _ (by decide) (by decide)

/-- C5: for an AnalysisRecord constructed with an explicit overallScore,
`fromMap ∘ toMap` reproduces every field — the stored overallScore is the
supplied one and the weighted aggregation is not recomputed. -/
theorem claim5_analysis_roundtrip :
    ∀ (pid : String) (scores : List (String × ℚ)) (q : ℚ) (st co : List String)
      (rank : Option ℤ) (t : DateTime) (a : AnalysisResult),
      t.Valid → mkAnalysisResult pid scores (some q) st co rank t = .ok a →
      AnalysisResult.from_dict a.to_dict = .ok a ∧ a.overall_score = some q := by
  intro pid scores q st co rank t a ht h
  obtain ⟨hval, ha⟩ := mkAnalysisResult_ok h
  subst ha
  constructor
  · unfold AnalysisResult.from_dict AnalysisResult.to_dict
    dsimp only
    rw [parseCreatedAt_isoformat ht]
    exact h
  · rfl

/-- C5 witness: a concrete record with explicit score 50. -/
theorem claim5_witness :
    AnalysisResult.from_dict (AnalysisResult.to_dict
        ⟨"p1", [("price", 50)], some 50, ["s"], ["c"], some 2,
          ⟨2024, 1, 2, 3, 4, 5, 123456⟩, true⟩) =
      .ok ⟨"p1", [("price", 50)], some 50, ["s"], ["c"], some 2,
        ⟨2024, 1, 2, 3, 4, 5, 123456⟩, true⟩ ∧
    (⟨"p1", [("price", 50)], some 50, ["s"], ["c"], some 2,
        ⟨2024, 1, 2, 3, 4, 5, 123456⟩, true⟩ : AnalysisResult).overall_score = some 50 :=
  claim5_analysis_roundtrip "p1" [("price", 50)] 50 ["s"] ["c"] (some 2)
    ⟨2024, 1, 2, 3, 4, 5, 123456⟩ _ (by decide) (by
      unfold mkAnalysisResult
      rw [show AnalysisResult.validate ⟨"p1", [("price", 50)], some 50, ["s"], ["c"], some 2,
          ⟨2024, 1, 2, 3, 4, 5, 123456⟩, false⟩ = .ok () from
        (AnalysisResult.validate_ok_iff _).mpr (by
          dsimp only
          refine ⟨by decide, by simp, ?_, ?_⟩
          · intro s hs
            injection hs with hs
            subst hs
            norm_num
          · intro x hx
            simp only [List.mem_cons, List.not_mem_nil, or_false] at hx
            subst hx
            norm_num)])

theorem parseFileSizeToBytes_error {s : String} {e : ConfigError}
    (h : parseFileSizeToBytes s = .error e) : e = .invalidSizeParse s := by
  unfold parseFileSizeToBytes at h
  split at h
  · cases h
    rfl
  · cases h

theorem Config.validate_badkey (c : Config)
    (h : pyStartsWith c.anthropic_api_key "sk-" = false) :
    Config.validate c = .error .badApiKeyFormat := by
  unfold Config.validate
  rw [if_pos (by simp [h])]

/-- C8: absent API key → MissingRequired; present but blank after stripping →
EmptyValue; non-blank but not `sk-`-prefixed → the load fails with an
InvalidFormat-kind error; and whenever the load succeeds the stored key is
the stripped value. -/
theorem claim8_api_key :
    ∀ (env : EnvMap) (rand : List (Fin 256)),
      (env "ANTHROPIC_API_KEY" = none →
          loadConfig env rand = .error (.missingRequired "ANTHROPIC_API_KEY")) ∧
      (∀ v : String, env "ANTHROPIC_API_KEY" = some v → pyStrip v = "" →
          loadConfig env rand = .error (.emptyValue "ANTHROPIC_API_KEY")) ∧
      (∀ v : String, env "ANTHROPIC_API_KEY" = some v → pyStrip v ≠ "" →
          pyStartsWith (pyStrip v) "sk-" = false →
          ∃ e, loadConfig env rand = .error e ∧ e.kind = .invalidFormat) ∧
      (∀ (v : String) (c : Config), env "ANTHROPIC_API_KEY" = some v →
          loadConfig env rand = .ok c → c.anthropic_api_key = pyStrip v) ∧
      (ConfigError.missingRequired "ANTHROPIC_API_KEY").kind = .missingRequired ∧
      (ConfigError.emptyValue "ANTHROPIC_API_KEY").kind = .emptyValue := by
  intro env rand
  refine ⟨?_, ?_, ?_, ?_, rfl, rfl⟩
  · intro h
    unfold loadConfig
    rw [show getRequiredEnv env "ANTHROPIC_API_KEY" =
        .error (.missingRequired "ANTHROPIC_API_KEY") from by
      unfold getRequiredEnv
      rw [h]]
  · intro v hv htrim
    unfold loadConfig
    rw [show getRequiredEnv env "ANTHROPIC_API_KEY" =
        .error (.emptyValue "ANTHROPIC_API_KEY") from by
      unfold getRequiredEnv
      rw [hv]
      dsimp only
      rw [if_pos htrim]]
  · intro v hv htrim hsw
    have hreq : getRequiredEnv env "ANTHROPIC_API_KEY" = .ok (pyStrip v) := by
      unfold getRequiredEnv
      rw [hv]
      dsimp only
      rw [if_neg htrim]
    unfold loadConfig
    rw [hreq]
    dsimp only
    cases hp : parseFileSizeToBytes (getOptionalEnv env "MAX_FILE_SIZE"
        DEFAULT_MAX_FILE_SIZE) with
    | error e =>
        refine ⟨e, rfl, ?_⟩
        rw [parseFileSizeToBytes_error hp]
        rfl
    | ok bytes =>
        refine ⟨.badApiKeyFormat, ?_, rfl⟩
        dsimp only
        rw [Config.validate_badkey
          ⟨pyStrip v, getOptionalEnv env "FLASK_SECRET_KEY" (token_hex rand),
            getOptionalEnv env "MAX_FILE_SIZE" DEFAULT_MAX_FILE_SIZE,
            getOptionalEnv env "SUPPORTED_FILE_TYPES" DEFAULT_SUPPORTED_FILE_TYPES,
            bytes, false⟩ hsw]
  · intro v c hv hok
    obtain ⟨apiKey, bytes, hreq, hparse, hc⟩ := loadConfig_ok hok
    subst hc
    show apiKey = pyStrip v
    unfold getRequiredEnv at hreq
    rw [hv] at hreq
    dsimp only at hreq
    by_cases ht : pyStrip v = ""
    · rw [if_pos ht] at hreq
      cases hreq
    · rw [if_neg ht] at hreq
      injection hreq with h2
      exact h2.symm

/-- C8 witness: the four cases at concrete environments. -/
theorem claim8_witness :
    loadConfig (fun _ => none) [] = .error (.missingRequired "ANTHROPIC_API_KEY") ∧
    loadConfig (fun k => if k = "ANTHROPIC_API_KEY" then some "   " else none) [] =
      .error (.emptyValue "ANTHROPIC_API_KEY") ∧
    (∃ e, loadConfig (fun k => if k = "ANTHROPIC_API_KEY" then some "abc" else none) [] =
      .error e ∧ e.kind = .invalidFormat) ∧
    (⟨"sk-abc", "", "10MB", ".pdf", 10485760, true⟩ : Config).anthropic_api_key =
      pyStrip " sk-abc " :=
  ⟨(claim8_api_key (fun _ => none) []).1 rfl,
   (claim8_api_key (fun k => if k = "ANTHROPIC_API_KEY" then some "   " else none) []).2.1
     "   " (by decide) (by decide),
   (claim8_api_key (fun k => if k = "ANTHROPIC_API_KEY" then some "abc" else none) []).2.2.1
     "abc" (by decide) (by decide) (by decide),
   (claim8_api_key (fun k => if k = "ANTHROPIC_API_KEY" then some " sk-abc " else none)
       []).2.2.2.1 " sk-abc " ⟨"sk-abc", "", "10MB", ".pdf", 10485760, true⟩ (by decide)
     (loadConfig_eval (by decide) (by decide) (by decide) parse_ten_MB (by decide) (by decide)
       (by decide))⟩

theorem getOptionalEnv_eq_default {env : EnvMap} {key d : String}
    (h : env key = none ∨ ∃ v, env key = some v ∧ pyStrip v = "") :
    getOptionalEnv env key d = d := by
  unfold getOptionalEnv
  rcases h with h | ⟨v, hv, ht⟩
  · rw [h]
  · rw [hv]
    dsimp only
    rw [if_pos ht]

theorem getOptionalEnv_eq_strip {env : EnvMap} {key d v : String}
    (hv : env key = some v) (ht : pyStrip v ≠ "") :
    getOptionalEnv env key d = pyStrip v := by
  unfold getOptionalEnv
  rw [hv]
  dsimp only
  rw [if_neg ht]

/-- C9: on a successful load, each optional variable that is absent or blank
after stripping falls back to its documented default (maxFileSize "10MB",
supportedFileTypes ".pdf", sessionSecret the freshly generated 64-hex-char
token), each supplied non-blank value is stored stripped, and
maxFileSizeBytes is the size parser's value for the stored maxFileSize; the
scenario environment yields `maxFileSizeBytes = 10485760`. -/
theorem claim9_optional_env :
    (∀ (env : EnvMap) (rand : List (Fin 256)) (c : Config),
        loadConfig env rand = .ok c →
        ((env "MAX_FILE_SIZE" = none ∨
            (∃ v, env "MAX_FILE_SIZE" = some v ∧ pyStrip v = "")) →
          c.max_file_size = "10MB") ∧
        ((env "SUPPORTED_FILE_TYPES" = none ∨
            (∃ v, env "SUPPORTED_FILE_TYPES" = some v ∧ pyStrip v = "")) →
          c.supported_file_types = ".pdf") ∧
        ((env "FLASK_SECRET_KEY" = none ∨
            (∃ v, env "FLASK_SECRET_KEY" = some v ∧ pyStrip v = "")) →
          c.flask_secret_key = token_hex rand) ∧
        (∀ v, env "MAX_FILE_SIZE" = some v → pyStrip v ≠ "" →
          c.max_file_size = pyStrip v) ∧
        (∀ v, env "SUPPORTED_FILE_TYPES" = some v → pyStrip v ≠ "" →
          c.supported_file_types = pyStrip v) ∧
        (∀ v, env "FLASK_SECRET_KEY" = some v → pyStrip v ≠ "" →
          c.flask_secret_key = pyStrip v) ∧
        parseFileSizeToBytes c.max_file_size = .ok c.max_file_size_bytes) ∧
    (∀ rand : List (Fin 256), rand.length = 32 →
        (token_hex rand).length = 64 ∧
        ∀ ch ∈ (token_hex rand).data, isHexLowerChar ch = true) ∧
    (∀ rand : List (Fin 256),
        (loadConfig (fun k => if k = "ANTHROPIC_API_KEY" then some "sk-abc"
            else if k = "MAX_FILE_SIZE" then some "10MB" else none) rand).map
          (fun c => c.max_file_size_bytes) = .ok 10485760) := by
  refine ⟨?_, ?_, ?_⟩
  · intro env rand c hok
    obtain ⟨apiKey, bytes, hreq, hparse, hc⟩ := loadConfig_ok hok
    subst hc
    refine ⟨?_, ?_, ?_, ?_, ?_, ?_, ?_⟩
    · intro h
      exact getOptionalEnv_eq_default h
    · intro h
      exact getOptionalEnv_eq_default h
    · intro h
      exact getOptionalEnv_eq_default h
    · intro v hv ht
      exact getOptionalEnv_eq_strip hv ht
    · intro v hv ht
      exact getOptionalEnv_eq_strip hv ht
    · intro v hv ht
      exact getOptionalEnv_eq_strip hv ht
    · exact hparse
  · intro rand hlen
    refine ⟨?_, token_hex_chars rand⟩
    rw [token_hex_length, hlen]
  · intro rand
    unfold loadConfig
    rw [show getRequiredEnv (fun k => if k = "ANTHROPIC_API_KEY" then some "sk-abc"
        else if k = "MAX_FILE_SIZE" then some "10MB" else none) "ANTHROPIC_API_KEY" =
        .ok "sk-abc" from by decide]
    dsimp only
    rw [show getOptionalEnv (fun k => if k = "ANTHROPIC_API_KEY" then some "sk-abc"
        else if k = "MAX_FILE_SIZE" then some "10MB" else none) "MAX_FILE_SIZE"
        DEFAULT_MAX_FILE_SIZE = "10MB" from by decide]
    rw [parse_ten_MB]
    dsimp only
    rw [Config.validate_ok
      ⟨"sk-abc", getOptionalEnv (fun k => if k = "ANTHROPIC_API_KEY" then some "sk-abc"
          else if k = "MAX_FILE_SIZE" then some "10MB" else none) "FLASK_SECRET_KEY"
          (token_hex rand), "10MB",
        getOptionalEnv (fun k => if k = "ANTHROPIC_API_KEY" then some "sk-abc"
          else if k = "MAX_FILE_SIZE" then some "10MB" else none) "SUPPORTED_FILE_TYPES"
          DEFAULT_SUPPORTED_FILE_TYPES, 10485760, false⟩
      (show pyStartsWith "sk-abc" "sk-" = true from by decide)
      (show isValidFileSize "10MB" = true from by decide)
      (show pyStartsWith ".pdf" "." = true from by decide)]
    rfl

/-- C9 witness: defaults with only the API key set, a stripped stored value,
the generated secret's shape at 32 concrete bytes, and the scenario bytes. -/
theorem claim9_witness :
    (⟨"sk-abc", "", "10MB", ".pdf", 10485760, true⟩ : Config).max_file_size = "10MB" ∧
    (⟨"sk-abc", "", "10MB", ".pdf", 10485760, true⟩ : Config).supported_file_types =
      ".pdf" ∧
    (⟨"sk-abc", "", "10MB", ".pdf", 10485760, true⟩ : Config).flask_secret_key =
      token_hex [] ∧
    (token_hex (List.replicate 32 (0 : Fin 256))).length = 64 ∧
    (⟨"sk-abc", "", "10MB", ".pdf", 10485760, true⟩ : Config).max_file_size =
      pyStrip " 10MB " ∧
    (loadConfig (fun k => if k = "ANTHROPIC_API_KEY" then some "sk-abc"
        else if k = "MAX_FILE_SIZE" then some "10MB" else none) []).map
      (fun c => c.max_file_size_bytes) = .ok 10485760 := by
  have h1 := (claim9_optional_env.1
    (fun k => if k = "ANTHROPIC_API_KEY" then some "sk-abc" else none) []
    ⟨"sk-abc", "", "10MB", ".pdf", 10485760, true⟩
    (loadConfig_eval (by decide) (by decide) (by decide) parse_ten_MB (by decide) (by decide)
      (by decide)))
  have h2 := (claim9_optional_env.1
    (fun k => if k = "ANTHROPIC_API_KEY" then some "sk-abc"
      else if k = "MAX_FILE_SIZE" then some " 10MB " else none) []
    ⟨"sk-abc", "", "10MB", ".pdf", 10485760, true⟩
    (loadConfig_eval (by decide) (by decide) (by decide) parse_ten_MB (by decide) (by decide)
      (by decide)))
  exact ⟨h1.1 (Or.inl (by decide)), h1.2.1 (Or.inl (by decide)), h1.2.2.1 (Or.inl (by decide)),
    (claim9_optional_env.2.1 (List.replicate 32 (0 : Fin 256)) (by simp)).1,
    h2.2.2.2.1 " 10MB " (by decide) (by decide), claim9_optional_env.2.2 []⟩

theorem ratFloor_ten_MB :
    (ratFloor (pyFloatVal ['1', '0'] [] * ((1048576 : ℕ) : ℚ))).toNat = 10485760 := by
  have hv : pyFloatVal ['1', '0'] [] * ((1048576 : ℕ) : ℚ) = ((10485760 : ℤ) : ℚ) := by
    unfold pyFloatVal
    rw [show digitsToNat ['1', '0'] = 10 from by decide,
      show digitsToNat ([] : List Char) = 0 from rfl]
    norm_num
  rw [ratFloor_eq_floor, hv, Int.floor_intCast]
  rfl

/-- C3 (amended): `isValidSize` accepts exactly the case-insensitive full
matches of `\d+(\.\d+)?[KMGT]?B` *or such a match followed by one trailing
newline* (Python's `re` `$` also matches just before a final newline);
every accepted string decomposes — after upper-casing — into digits, an
optional dot-fraction, an optional unit letter, `B`, and at most one
trailing newline, and on every such decomposition (strict or
newline-suffixed, hypothesized or produced by the completeness conjunct)
the parsed value is the numeric literal times the claim's unit multiplier,
truncated; every rejected string makes `parseToBytes` fail with the
InvalidFormat-kind error. -/
theorem claim3_size_validator :
    (∀ s : String, isValidFileSize s = true ↔
        (specSizeMatch s = true ∨
          (s.data.getLast? = some '\n' ∧ specSizeMatch (String.mk s.data.dropLast) = true))) ∧
    (∀ (s : String) (ds fs : List Char) (u : Option Char),
        s.data.map pyUpperChar =
            ds ++ ((if fs = [] then [] else '.' :: fs) ++ (unitChars u ++ ['B'])) →
        ds ≠ [] → (∀ c ∈ ds, c.isDigit = true) → (∀ c ∈ fs, c.isDigit = true) →
        (∀ c, u = some c → c = 'K' ∨ c = 'M' ∨ c = 'G' ∨ c = 'T') →
        parseFileSizeToBytes s =
          .ok ((ratFloor (pyFloatVal ds fs * (specMultiplier u : ℚ))).toNat)) ∧
    (∀ (s : String) (ds fs : List Char) (u : Option Char),
        s.data.map pyUpperChar =
            ds ++ ((if fs = [] then [] else '.' :: fs) ++ (unitChars u ++ ['B', '\n'])) →
        ds ≠ [] → (∀ c ∈ ds, c.isDigit = true) → (∀ c ∈ fs, c.isDigit = true) →
        (∀ c, u = some c → c = 'K' ∨ c = 'M' ∨ c = 'G' ∨ c = 'T') →
        parseFileSizeToBytes s =
          .ok ((ratFloor (pyFloatVal ds fs * (specMultiplier u : ℚ))).toNat)) ∧
    (∀ s : String, isValidFileSize s = true →
        ∃ (ds fs : List Char) (u : Option Char),
          (s.data.map pyUpperChar =
              ds ++ ((if fs = [] then [] else '.' :: fs) ++ (unitChars u ++ ['B'])) ∨
            s.data.map pyUpperChar =
              ds ++ ((if fs = [] then [] else '.' :: fs) ++ (unitChars u ++ ['B', '\n']))) ∧
          ds ≠ [] ∧ (∀ c ∈ ds, c.isDigit = true) ∧ (∀ c ∈ fs, c.isDigit = true) ∧
          (∀ c, u = some c → c = 'K' ∨ c = 'M' ∨ c = 'G' ∨ c = 'T') ∧
          parseFileSizeToBytes s =
            .ok ((ratFloor (pyFloatVal ds fs * (specMultiplier u : ℚ))).toNat)) ∧
    (∀ s : String, isValidFileSize s = false →
        parseFileSizeToBytes s = .error (.invalidSizeParse s)) ∧
    (∀ s : String, (ConfigError.invalidSizeParse s).kind = .invalidFormat) := by
  refine ⟨isValidFileSize_iff, ?_, ?_, ?_, ?_, fun s => rfl⟩
  · intro s ds fs u hmap hds hd hf hu
    exact parse_canonical hmap hds hd hf hu
  · intro s ds fs u hmap hds hd hf hu
    exact parse_canonical_newline hmap hds hd hf hu
  · intro s h
    exact parse_complete h
  · intro s h
    unfold parseFileSizeToBytes
    rw [if_pos (by simp [h])]

/-- C3 counterexample: `"10MB\n"` is not a full match of the claimed pattern,
yet `isValidSize` accepts it and `parseToBytes` returns 10485760 instead of
failing — refuting the claim's "iff the full pattern" and its "fails on every
non-matching string" parts. -/
theorem claim3_counterexample :
    isValidFileSize "10MB\n" = true ∧ specSizeMatch "10MB\n" = false ∧
    parseFileSizeToBytes "10MB\n" = .ok 10485760 := by
  refine ⟨by decide, by decide, ?_⟩
  unfold parseFileSizeToBytes
  rw [if_neg (by decide)]
  unfold sizeNumber
  rw [show ("10MB\n".data.map pyUpperChar).takeWhile Char.isDigit = ['1', '0'] from by decide,
    show sizeFrac ("10MB\n".data.map pyUpperChar) = [] from by decide,
    show sizeUnit ("10MB\n".data.map pyUpperChar) = ['M', 'B'] from by decide,
    show FILE_SIZE_UNITS ['M', 'B'] = 1048576 from by decide, ratFloor_ten_MB]

/-- C3 witness: the decimal example `2.5MB → 2621440` through the strict
value conjunct, the same size with a trailing newline through the
newline value conjunct, and a non-matching string through the failure
conjunct, at concrete inputs. -/
theorem claim3_witness :
    parseFileSizeToBytes "2.5MB" = .ok 2621440 ∧
    parseFileSizeToBytes "2.5MB\n" = .ok 2621440 ∧
    parseFileSizeToBytes "99" = .error (.invalidSizeParse "99") := by
  have hv : pyFloatVal ['2'] ['5'] * ((1048576 : ℕ) : ℚ) = ((2621440 : ℤ) : ℚ) := by
    unfold pyFloatVal
    rw [show digitsToNat ['2'] = 2 from by decide, show digitsToNat ['5'] = 5 from by decide,
      show (['5'] : List Char).length = 1 from rfl]
    norm_num
  refine ⟨?_, ?_, ?_⟩
  · have h := claim3_size_validator.2.1 "2.5MB" ['2'] ['5'] (some 'M') (by decide) (by decide)
      (by decide) (by decide) (by intro c hc; injection hc with hc; subst hc; decide)
    rw [h, show specMultiplier (some 'M') = 1048576 from by decide]
    rw [ratFloor_eq_floor, hv, Int.floor_intCast]
    rfl
  · have h := claim3_size_validator.2.2.1 "2.5MB\n" ['2'] ['5'] (some 'M') (by decide)
      (by decide) (by decide) (by decide)
      (by intro c hc; injection hc with hc; subst hc; decide)
    rw [h, show specMultiplier (some 'M') = 1048576 from by decide]
    rw [ratFloor_eq_floor, hv, Int.floor_intCast]
    rfl
  · exact claim3_size_validator.2.2.2.2.1 "99" (by decide)

end PeezyAgent
